import Mathlib

/-!
# Universal Machine emulator (`src/um.cpp`, `src/test_um.cpp`)

A shallow embedding of the emulator's segment pool, decoder and execution cycle.

* `u32` values are natural numbers; every operation that can overflow in the source is
  followed by an explicit reduction modulo `2^32 = 4294967296`.
* `size_t` is the 64-bit host type, so the casts `(size_t)id` are the identity on `u32`
  values and `(u32)arrays.size()` is reduction modulo `2^32`.
* `std::vector` is `List`; `push_back` appends at the end, `back`/`pop_back` are
  `getLast?`/`dropLast`.
* `fail` prints a diagnostic and exits: functions that can fail return `Except String _`,
  the string being the diagnostic.
* Standard input is the list of bytes not yet consumed, standard output the list of bytes
  written so far. `putchar` is taken to succeed and the host to have enough memory.
-/

namespace UMEmu

/-- An `unsigned char`. -/
abbrev Byte := Fin 256

/-- The state of `struct UM` of `src/um.cpp`, together with the two standard streams. -/
structure UM where
  /-- Registers `u32 R[8]`. -/
  R : Fin 8 → Nat
  /-- Memory segments. -/
  arrays : List (List Nat)
  /-- Reusable segment ids (a stack, top at the end). -/
  free_ids : List Nat
  /-- Program counter. -/
  pc : Nat
  /-- Halt flag. -/
  halted : Bool
  /-- Active flags (`vector<uint8_t>`). -/
  active : List Nat
  /-- Bytes of standard input not yet consumed. -/
  input : List Byte
  /-- Bytes written to standard output so far, oldest first. -/
  output : List Nat

/-- The source's `fail`: diagnostic and `exit(1)`. -/
def fail {α : Type} (msg : String) : Except String α := Except.error msg

/-- Read of `R[i]`. -/
def UM.rd (um : UM) (i : Nat) : Nat := um.R (Fin.ofNat i)

/-- Assignment `R[i] = v`. -/
def UM.wr (um : UM) (i : Nat) (v : Nat) : UM :=
  { um with R := Function.update um.R (Fin.ofNat i) v }

/-- The word assembled from four bytes of the program file (big-endian). -/
def be_word (b0 b1 b2 b3 : Byte) : Nat :=
  (b0.val <<< 24) ||| (b1.val <<< 16) ||| (b2.val <<< 8) ||| b3.val

/-- The `while (true)` loop of `load_program`: `fread` of up to four bytes at a time. -/
def read_words : List Byte → List Nat → Except String (List Nat)
  | [], prog => Except.ok prog
  | b0 :: b1 :: b2 :: b3 :: rest, prog => read_words rest (prog ++ [be_word b0 b1 b2 b3])
  | _, _ => fail "program file size not divisible by 4"

/-- The loader `UM::load_program`; `file` is the content of the file at `path`, or `none`
when it cannot be opened. -/
def load_program (um : UM) (path : String) (file : Option (List Byte)) : Except String UM :=
  match file with
  | none => fail ("cannot open program file: " ++ path)
  | some bytes =>
    match read_words bytes [] with
    | Except.error e => Except.error e
    | Except.ok prog =>
      Except.ok { um with
        arrays := [prog], active := [1], free_ids := [], pc := 0, halted := false,
        R := fun _ => 0 }

/-- The allocator `UM::alloc_array`: returns the id and the new state. -/
def alloc_array (um : UM) (size : Nat) : Except String (Nat × UM) :=
  let len := size
  match um.free_ids.getLast? with
  | some id =>
    let um1 := { um with free_ids := um.free_ids.dropLast }
    let idx := id
    if idx ≥ um1.arrays.length then fail "internal: recycled id out of range"
    else if um1.active.getD idx 0 ≠ 0 then fail "internal: recycled id still active"
    else
      let um2 := { um1 with
        arrays := um1.arrays.set idx (List.replicate len 0),
        active := um1.active.set idx 1 }
      if id = 0 then fail "internal: allocated id 0 (forbidden)" else Except.ok (id, um2)
  | none =>
    let id := um.arrays.length % 4294967296
    let um2 := { um with
      arrays := um.arrays ++ [List.replicate len 0],
      active := um.active ++ [1] }
    if id = 0 then fail "internal: allocated id 0 (forbidden)" else Except.ok (id, um2)

/-- Decoder: opcode, bits 28..31. -/
def OP (w : Nat) : Nat := w >>> 28
/-- Decoder: register A, bits 6..8. -/
def A (w : Nat) : Nat := (w >>> 6) &&& 7
/-- Decoder: register B, bits 3..5. -/
def B (w : Nat) : Nat := (w >>> 3) &&& 7
/-- Decoder: register C, bits 0..2. -/
def C (w : Nat) : Nat := (w >>> 0) &&& 7

/-- The guard `UM::check_active`. -/
def check_active (um : UM) (id : Nat) : Except String Unit :=
  if id ≥ um.arrays.length ∨ um.active.getD id 0 = 0 then
    fail ("accessing non-active array id=" ++ toString id)
  else Except.ok ()

/-- The guard `UM::check_bounds`. -/
def check_bounds (um : UM) (id off : Nat) : Except String Unit :=
  if id ≥ um.arrays.length ∨ um.active.getD id 0 = 0 then
    fail ("accessing non-active array id=" ++ toString id)
  else if off ≥ (um.arrays.getD id []).length then fail "array index out of bounds"
  else Except.ok ()

/-- The deallocator `UM::free_array`. -/
def free_array (um : UM) (id : Nat) : Except String UM :=
  if id = 0 then fail "attempt to deallocate array 0"
  else if id ≥ um.arrays.length ∨ um.active.getD id 0 = 0 then
    fail "deallocate a non-active array"
  else
    Except.ok { um with
      active := um.active.set id 0,
      arrays := um.arrays.set id [],
      free_ids := um.free_ids ++ [id] }

/-- The operator `~` on `u32`. -/
def not32 (x : Nat) : Nat := (x ^^^ 0xFFFFFFFF) % 4294967296

/-- The body of the loop of `UM::run` after the fetch: decode and execute `instr`.
The result carries the flag `advance_pc`. -/
def dispatch (um : UM) (instr : Nat) : Except String (UM × Bool) :=
  let op := OP instr
  if op = 13 then
    let a := (instr >>> 25) &&& 7
    let val := instr &&& 0x1FFFFFF
    Except.ok (um.wr a val, true)
  else
    let a := A instr
    let b := B instr
    let c := C instr
    if op = 0 then
      Except.ok (if um.rd c ≠ 0 then um.wr a (um.rd b) else um, true)
    else if op = 1 then
      match check_active um (um.rd b) with
      | Except.error e => Except.error e
      | Except.ok _ =>
        match check_bounds um (um.rd b) (um.rd c) with
        | Except.error e => Except.error e
        | Except.ok _ =>
          Except.ok (um.wr a ((um.arrays.getD (um.rd b) []).getD (um.rd c) 0), true)
    else if op = 2 then
      match check_active um (um.rd a) with
      | Except.error e => Except.error e
      | Except.ok _ =>
        match check_bounds um (um.rd a) (um.rd b) with
        | Except.error e => Except.error e
        | Except.ok _ =>
          Except.ok ({ um with
            arrays := um.arrays.set (um.rd a)
              ((um.arrays.getD (um.rd a) []).set (um.rd b) (um.rd c)) }, true)
    else if op = 3 then
      Except.ok (um.wr a ((um.rd b + um.rd c) % 4294967296), true)
    else if op = 4 then
      Except.ok (um.wr a ((um.rd b * um.rd c) % 4294967296), true)
    else if op = 5 then
      if um.rd c = 0 then fail "Division by zero"
      else Except.ok (um.wr a ((um.rd b / um.rd c) % 4294967296), true)
    else if op = 6 then
      Except.ok (um.wr a (not32 (um.rd b &&& um.rd c)), true)
    else if op = 7 then
      Except.ok ({ um with halted := true }, true)
    else if op = 8 then
      let words := um.rd c
      match alloc_array um words with
      | Except.error e => Except.error e
      | Except.ok (id, um1) => Except.ok (um1.wr b id, true)
    else if op = 9 then
      match free_array um (um.rd c) with
      | Except.error e => Except.error e
      | Except.ok um1 => Except.ok (um1, true)
    else if op = 10 then
      if um.rd c > 255 then fail "Output value out of range"
      else Except.ok ({ um with output := um.output ++ [um.rd c % 256] }, true)
    else if op = 11 then
      match um.input with
      | [] => Except.ok (um.wr c 0xFFFFFFFF, true)
      | ch :: rest => Except.ok (({ um with input := rest }).wr c (ch.val % 256), true)
    else if op = 12 then
      let id := um.rd b
      let new_pc := um.rd c
      if id ≠ 0 then
        match check_active um id with
        | Except.error e => Except.error e
        | Except.ok _ =>
          Except.ok ({ um with arrays := um.arrays.set 0 (um.arrays.getD id []), pc := new_pc },
            false)
      else Except.ok ({ um with pc := new_pc }, false)
    else fail ("Unknown operation code: " ++ toString op)

/-- One iteration of the `while (!halted)` loop of `UM::run`. -/
def cycle (um : UM) : Except String UM :=
  if um.pc ≥ (um.arrays.getD 0 []).length then fail "PC out of bounds"
  else
    match dispatch um ((um.arrays.getD 0 []).getD um.pc 0) with
    | Except.error e => Except.error e
    | Except.ok (um1, advance_pc) =>
      Except.ok (if advance_pc then { um1 with pc := (um1.pc + 1) % 4294967296 } else um1)

/-- The loop `UM::run`, with a bound on the number of cycles: `none` when the bound is
reached before the machine halts or fails. -/
def run : Nat → UM → Option (Except String UM)
  | fuel, um =>
    if um.halted then some (Except.ok um)
    else
      match fuel with
      | 0 => none
      | n + 1 =>
        match cycle um with
        | Except.error e => some (Except.error e)
        | Except.ok um1 => run n um1

/-- A freshly constructed `UM um;` reading from the standard input `inp`. -/
def UM.fresh (inp : List Byte) : UM :=
  { R := fun _ => 0, arrays := [], free_ids := [], pc := 0, halted := false, active := [],
    input := inp, output := [] }

/-- States reachable from a loaded program by non-failing cycles of `run`. -/
inductive Reachable : UM → Prop
  | load (um : UM) (path : String) (bytes : List Byte) (s : UM) :
      load_program um path (some bytes) = Except.ok s → Reachable s
  | step (s t : UM) : Reachable s → s.halted = false → cycle s = Except.ok t → Reachable t

/-- Segment `id` is active: a slot of the pool whose flag is set. -/
def UM.isActive (um : UM) (id : Nat) : Prop :=
  id < um.arrays.length ∧ um.active.getD id 0 ≠ 0

instance (um : UM) (id : Nat) : Decidable (um.isActive id) := by
  unfold UM.isActive; infer_instance

/-- Length of segment `id`. -/
def UM.seglen (um : UM) (id : Nat) : Nat := (um.arrays.getD id []).length

/-- The state after `alloc_array` recycles `id`, the stack below it being `l`. -/
def UM.recycled (s : UM) (l : List Nat) (id n : Nat) : UM :=
  { s with free_ids := l, arrays := s.arrays.set id (List.replicate n 0),
           active := s.active.set id 1 }

/-- The state after `alloc_array` mints a new slot. -/
def UM.minted (s : UM) (n : Nat) : UM :=
  { s with arrays := s.arrays ++ [List.replicate n 0], active := s.active ++ [1] }

/-- The state after a successful `free_array id`. -/
def UM.freed (s : UM) (id : Nat) : UM :=
  { s with active := s.active.set id 0, arrays := s.arrays.set id [],
           free_ids := s.free_ids ++ [id] }

/-- The state after a successful Array Amendment `arrays[id][off] = v`. -/
def UM.amended (s : UM) (id off v : Nat) : UM :=
  { s with arrays := s.arrays.set id ((s.arrays.getD id []).set off v) }

/-- The state after Load Program copies segment `id` over segment 0 and jumps to `npc`. -/
def UM.loaded (s : UM) (id npc : Nat) : UM :=
  { s with arrays := s.arrays.set 0 (s.arrays.getD id []), pc := npc }

/-- Segment 0 exists and its flag is 1. -/
def UM.seg0_live (s : UM) : Prop := s.arrays ≠ [] ∧ s.active[0]? = some 1

/-- The instruction word the next cycle fetches (meaningful when `pc` is in range). -/
def UM.fetch (s : UM) : Nat := (s.arrays.getD 0 []).getD s.pc 0

/-- The id handed out by `alloc_array` during the next cycle, if that cycle is an
Allocation (opcode 8, the only caller of `alloc_array`) that succeeds. -/
def cycle_alloc (s : UM) : Option Nat :=
  if s.pc ≥ (s.arrays.getD 0 []).length then none
  else if OP s.fetch = 8 then
    match alloc_array s (s.rd (C s.fetch)) with
    | Except.error _ => none
    | Except.ok (id, _) => some id
  else none

/-- Sequences of non-failing cycles none of whose `alloc_array` calls returns `id`. -/
inductive AvoidSteps (id : Nat) : UM → UM → Prop
  | refl (s : UM) : AvoidSteps id s s
  | step (s t u : UM) : cycle s = Except.ok t → cycle_alloc s ≠ some id →
      AvoidSteps id t u → AvoidSteps id s u

/-- Program: allocate 0 words into `R[1]`, then Halt. -/
def alloc_bytes : List Byte := [0x80, 0, 0, 0x08, 0x70, 0, 0, 0]

/-- The machine loaded with `alloc_bytes`. -/
def alloc_state0 : UM :=
  { R := fun _ => 0, arrays := [[0x80000008, 0x70000000]], free_ids := [], pc := 0,
    halted := false, active := [1], input := [], output := [] }

/-- Program: `R[1] = 1`; allocate `R[1]` words into `R[2]`; write `R[1]` at offset `R[0]`
of segment `R[2]`; free segment `R[2]`; Halt. -/
def demo_bytes : List Byte :=
  [0xD2, 0, 0, 0x01, 0x80, 0, 0, 0x11, 0x20, 0, 0, 0x81, 0x90, 0, 0, 0x02, 0x70, 0, 0, 0]

/-- The words of `demo_bytes`. -/
def demo_prog : List Nat := [0xD2000001, 0x80000011, 0x20000081, 0x90000002, 0x70000000]

/-- The machine loaded with `demo_bytes`. -/
def demo0 : UM :=
  { R := fun _ => 0, arrays := [demo_prog], free_ids := [], pc := 0, halted := false,
    active := [1], input := [], output := [] }

/-- After the Load Value. -/
def demo1 : UM := { demo0.wr 1 1 with pc := 1 }

/-- After the Allocation: segment 1 is one zero word. -/
def demo2 : UM :=
  { R := Function.update demo1.R 2 1, arrays := [demo_prog, [0]], free_ids := [], pc := 2,
    halted := false, active := [1, 1], input := [], output := [] }

/-- After the Array Amendment: segment 1 holds the word 1. -/
def demo3 : UM := { demo2 with arrays := [demo_prog, [1]], pc := 3 }

/-- After the Deallocation: id 1 is on the recycling stack. -/
def demo4 : UM :=
  { demo3 with arrays := [demo_prog, []], active := [1, 0], free_ids := [1], pc := 4 }

/-- The failure conditions of one cycle, as the specification lists them. -/
def listed_failure (s : UM) : Prop :=
  s.pc ≥ s.seglen 0 ∨ OP s.fetch = 14 ∨ OP s.fetch = 15 ∨
  (OP s.fetch = 1 ∧
    (¬ s.isActive (s.rd (B s.fetch)) ∨ s.rd (C s.fetch) ≥ s.seglen (s.rd (B s.fetch)))) ∨
  (OP s.fetch = 2 ∧
    (¬ s.isActive (s.rd (A s.fetch)) ∨ s.rd (B s.fetch) ≥ s.seglen (s.rd (A s.fetch)))) ∨
  (OP s.fetch = 5 ∧ s.rd (C s.fetch) = 0) ∨
  (OP s.fetch = 9 ∧ (s.rd (C s.fetch) = 0 ∨ ¬ s.isActive (s.rd (C s.fetch)))) ∨
  (OP s.fetch = 10 ∧ s.rd (C s.fetch) > 255) ∨
  (OP s.fetch = 12 ∧ s.rd (B s.fetch) ≠ 0 ∧ ¬ s.isActive (s.rd (B s.fetch)))

/-- The failure the list leaves out: an Allocation that has to mint an id when the pool
already has `2^32` slots, so that `(u32)arrays.size()` is 0. -/
def pool_exhausted (s : UM) : Prop :=
  s.pc < s.seglen 0 ∧ OP s.fetch = 8 ∧ s.free_ids = [] ∧ s.arrays.length = 4294967296

/-- Program: allocate `R[0] = 0` words into `R[1]`; jump to offset `R[0] = 0`. It loops,
growing the pool by one empty segment per turn. -/
def pump_bytes : List Byte := [0x80, 0, 0, 0x08, 0xC0, 0, 0, 0]

/-- The words of `pump_bytes`. -/
def pump_prog : List Nat := [0x80000008, 0xC0000000]

/-- The machine running `pump_bytes` after `k` allocations, at program counter `pc`. -/
def pump_state (k pc : Nat) : UM :=
  { R := fun r => if r = 1 then k else 0, arrays := pump_prog :: List.replicate k [],
    free_ids := [], pc := pc, halted := false, active := List.replicate (k + 1) 1,
    input := [], output := [] }

/-- The machine running `pump_bytes` whose pool has reached `2^32` slots. -/
def pump_full : UM := pump_state 4294967295 0

/-- Sequences of non-failing cycles. -/
inductive Steps : UM → UM → Prop
  | refl (s : UM) : Steps s s
  | step (s t u : UM) : cycle s = Except.ok t → Steps t u → Steps s u

/-- A machine about to execute Load Program with `B = 1`, `C = 2`, where `R[1] = 1` names
the active segment `[7, 8, 9]` and `R[2] = 5`. -/
def load_state : UM :=
  { R := fun r => if r = 1 then 1 else if r = 2 then 5 else 0,
    arrays := [[0xC000000A], [7, 8, 9]], free_ids := [], pc := 0, halted := false,
    active := [1, 1], input := [], output := [] }

/-- A machine about to execute Load Program with `B = 0`, `C = 2`, where `R[0] = 0` and
`R[2] = 5`. -/
def jump_state : UM :=
  { R := fun r => if r = 2 then 5 else 0,
    arrays := [[0xC0000002], [7, 8, 9]], free_ids := [], pc := 0, halted := false,
    active := [1, 1], input := [], output := [] }

/-- A machine with `R[1] = 0xFFFFFFFF`, `R[2] = 3` whose one-word program is `w`. -/
def arith_state (w : Nat) : UM :=
  { R := fun r => if r = 1 then 0xFFFFFFFF else if r = 2 then 3 else 0,
    arrays := [[w]], free_ids := [], pc := 0, halted := false,
    active := [1], input := [], output := [] }

/-- The state of `struct UM` of `src/test_um.cpp` (it has no halt flag), together with the
two standard streams. -/
structure TestUM where
  /-- Registers `u32 R[8]`. -/
  R : Fin 8 → Nat
  /-- Array pool. -/
  arrays : List (List Nat)
  /-- Active flags. -/
  active : List Nat
  /-- Recycling pool of freed ids. -/
  free_ids : List Nat
  /-- Program counter. -/
  pc : Nat
  /-- Bytes of standard input not yet consumed. -/
  input : List Byte
  /-- Bytes written to standard output so far, oldest first. -/
  output : List Nat

/-- Read of `R[i]` (`src/test_um.cpp`). -/
def TestUM.rd (um : TestUM) (i : Nat) : Nat := um.R (Fin.ofNat i)

/-- Assignment `R[i] = v` (`src/test_um.cpp`). -/
def TestUM.wr (um : TestUM) (i : Nat) (v : Nat) : TestUM :=
  { um with R := Function.update um.R (Fin.ofNat i) v }

/-- The allocator `alloc_array` of `src/test_um.cpp`: a recycled id is only checked to be
in range. -/
def TestUM.alloc_array (um : TestUM) (words : Nat) : Except String (Nat × TestUM) :=
  let len := words
  match um.free_ids.getLast? with
  | some id =>
    let um1 := { um with free_ids := um.free_ids.dropLast }
    let uid := id
    if uid ≥ um1.arrays.length then fail "internal: recycled id out of range"
    else
      let um2 := { um1 with
        arrays := um1.arrays.set uid (List.replicate len 0),
        active := um1.active.set uid 1 }
      if id = 0 then fail "internal: allocated id 0 (forbidden)" else Except.ok (id, um2)
  | none =>
    let id := um.arrays.length % 4294967296
    let um2 := { um with
      arrays := um.arrays ++ [List.replicate len 0],
      active := um.active ++ [1] }
    if id = 0 then fail "internal: allocated id 0 (forbidden)" else Except.ok (id, um2)

/-- The deallocator `free_array` of `src/test_um.cpp`. -/
def TestUM.free_array (um : TestUM) (id : Nat) : Except String TestUM :=
  if id = 0 then fail "attempt to deallocate array 0"
  else if id ≥ um.arrays.length ∨ um.active.getD id 0 = 0 then
    fail "deallocate a non-active array"
  else
    Except.ok { um with
      active := um.active.set id 0,
      arrays := um.arrays.set id [],
      free_ids := um.free_ids ++ [id] }

/-- The guard `check_active` of `src/test_um.cpp`. -/
def TestUM.check_active (um : TestUM) (id : Nat) : Except String Unit :=
  if id ≥ um.arrays.length ∨ um.active.getD id 0 = 0 then
    fail ("accessing non-active array id=" ++ toString id)
  else Except.ok ()

/-- The guard `check_bounds` of `src/test_um.cpp`. -/
def TestUM.check_bounds (um : TestUM) (id off : Nat) : Except String Unit :=
  if id ≥ um.arrays.length ∨ um.active.getD id 0 = 0 then
    fail ("accessing non-active array id=" ++ toString id)
  else if off ≥ (um.arrays.getD id []).length then fail "array index out of bounds"
  else Except.ok ()

/-- Decoder of `src/test_um.cpp`: opcode. -/
def OPC (w : Nat) : Nat := w >>> 28
/-- Decoder of `src/test_um.cpp`: standard-format A. -/
def Astd (w : Nat) : Nat := (w >>> 6) &&& 7
/-- Decoder of `src/test_um.cpp`: standard-format B. -/
def Bstd (w : Nat) : Nat := (w >>> 3) &&& 7
/-- Decoder of `src/test_um.cpp`: standard-format C. -/
def Cstd (w : Nat) : Nat := (w >>> 0) &&& 7

/-- How one iteration of the `for (;;)` loop of `run` in `src/test_um.cpp` ends. -/
inductive TestStep where
  /-- A call of `fail`. -/
  | failed (msg : String)
  /-- The `return` of Halt, in the state it was executed in. -/
  | returned (um : TestUM)
  /-- The end of the loop body. -/
  | continued (um : TestUM)

/-- The end of the loop body of `run` in `src/test_um.cpp`: `if (advance_pc) ++pc`. -/
def TestUM.finish (um : TestUM) (advance_pc : Bool) : TestStep :=
  TestStep.continued (if advance_pc then { um with pc := (um.pc + 1) % 4294967296 } else um)

/-- One iteration of the `for (;;)` loop of `run` in `src/test_um.cpp`. Arithmetic goes
through `u64` (modulus `2^64 = 18446744073709551616`) before the cast back to `u32`. -/
def TestUM.cycle (um : TestUM) : TestStep :=
  if um.pc ≥ (um.arrays.getD 0 []).length then
    TestStep.failed "program counter outside array 0 capacity"
  else
    let inst := (um.arrays.getD 0 []).getD um.pc 0
    let op := OPC inst
    if op = 13 then
      let a := (inst >>> 25) &&& 7
      let val := inst &&& 0x1FFFFFF
      (um.wr a val).finish true
    else
      let a := Astd inst
      let b := Bstd inst
      let c := Cstd inst
      if op = 0 then
        (if um.rd c ≠ 0 then um.wr a (um.rd b) else um).finish true
      else if op = 1 then
        let id := um.rd b
        let off := um.rd c
        match um.check_active id with
        | Except.error e => TestStep.failed e
        | Except.ok _ =>
          match um.check_bounds id off with
          | Except.error e => TestStep.failed e
          | Except.ok _ => (um.wr a ((um.arrays.getD id []).getD off 0)).finish true
      else if op = 2 then
        let id := um.rd a
        let off := um.rd b
        match um.check_active id with
        | Except.error e => TestStep.failed e
        | Except.ok _ =>
          match um.check_bounds id off with
          | Except.error e => TestStep.failed e
          | Except.ok _ =>
            ({ um with
              arrays := um.arrays.set id ((um.arrays.getD id []).set off (um.rd c)) }).finish
              true
      else if op = 3 then
        (um.wr a (((um.rd b + um.rd c) % 18446744073709551616) % 4294967296)).finish true
      else if op = 4 then
        (um.wr a (((um.rd b * um.rd c) % 18446744073709551616) % 4294967296)).finish true
      else if op = 5 then
        if um.rd c = 0 then TestStep.failed "division by zero"
        else (um.wr a ((um.rd b / um.rd c) % 4294967296)).finish true
      else if op = 6 then
        (um.wr a (not32 (um.rd b &&& um.rd c))).finish true
      else if op = 7 then
        TestStep.returned um
      else if op = 8 then
        let words := um.rd c
        match um.alloc_array words with
        | Except.error e => TestStep.failed e
        | Except.ok (id, um1) => (um1.wr b id).finish true
      else if op = 9 then
        match um.free_array (um.rd c) with
        | Except.error e => TestStep.failed e
        | Except.ok um1 => um1.finish true
      else if op = 10 then
        let v := um.rd c
        if v > 255 then TestStep.failed "output value > 255"
        else ({ um with output := um.output ++ [v &&& 0xFF] }).finish true
      else if op = 11 then
        match um.input with
        | [] => (um.wr c 0xFFFFFFFF).finish true
        | ch :: rest => (({ um with input := rest }).wr c (ch.val &&& 0xFF)).finish true
      else if op = 12 then
        let id := um.rd b
        match um.check_active id with
        | Except.error e => TestStep.failed e
        | Except.ok _ =>
          let dup := um.arrays.getD id []
          ({ um with arrays := um.arrays.set 0 dup, pc := um.rd c }).finish false
      else TestStep.failed "invalid opcode"

/-- The machine of `src/test_um.cpp` in the same state as one of `src/um.cpp`. -/
def UM.toTest (s : UM) : TestUM :=
  { R := s.R, arrays := s.arrays, active := s.active, free_ids := s.free_ids, pc := s.pc,
    input := s.input, output := s.output }

/-- Same registers, segments, active flags, recycling stack and streams. -/
def same_pool (s : UM) (t : TestUM) : Prop :=
  t.R = s.R ∧ t.arrays = s.arrays ∧ t.active = s.active ∧ t.free_ids = s.free_ids ∧
    t.output = s.output ∧ t.input = s.input

/-- The outcomes of one cycle of the two variants agree: both fail, or both halt in the
same pool, or both continue in the same pool at the same program counter. -/
def agree (r : Except String UM) (q : TestStep) : Prop :=
  match r, q with
  | Except.error _, TestStep.failed _ => True
  | Except.ok s1, TestStep.returned t1 => s1.halted = true ∧ same_pool s1 t1
  | Except.ok s1, TestStep.continued t1 =>
    s1.halted = false ∧ same_pool s1 t1 ∧ t1.pc = s1.pc
  | _, _ => False

/-- Scenario 5: `R[1] = 5`; `R[2] = 0`; Division with A = 3, B = 1, C = 2. -/
def div_bytes : List Byte := [0xD2, 0, 0, 0x05, 0xD4, 0, 0, 0, 0x50, 0, 0, 0xCA]

/-- The words of `div_bytes`. -/
def div_prog : List Nat := [0xD2000005, 0xD4000000, 0x500000CA]

/-- The machine loaded with `div_bytes`. -/
def div0 : UM :=
  { R := fun _ => 0, arrays := [div_prog], free_ids := [], pc := 0, halted := false,
    active := [1], input := [], output := [] }

/-- After the first Load Value of scenario 5. -/
def div1 : UM := { div0.wr 1 5 with pc := 1 }

/-- After the second Load Value of scenario 5. -/
def div2 : UM := { div1.wr 2 0 with pc := 2 }

/-- A machine about to divide `R[1] = 7` by `R[2] = 2` into `R[3]`. -/
def quot_state : UM :=
  { R := fun r => if r = 1 then 7 else if r = 2 then 2 else 0,
    arrays := [[0x500000CA]], free_ids := [], pc := 0, halted := false,
    active := [1], input := [], output := [] }

/-- A machine about to output `R[2] = 0x41`, with the byte `0x40` already written. -/
def out_state : UM :=
  { R := fun r => if r = 2 then 0x41 else 0,
    arrays := [[0xA0000002]], free_ids := [], pc := 0, halted := false,
    active := [1], input := [], output := [0x40] }

/-- Scenario 1 as the specification writes it: words `D4000041`, `E0000000`. -/
def scen1_bytes : List Byte := [0xD4, 0, 0, 0x41, 0xE0, 0, 0, 0]

/-- The machine loaded with `scen1_bytes`. -/
def scen1_0 : UM :=
  { R := fun _ => 0, arrays := [[0xD4000041, 0xE0000000]], free_ids := [], pc := 0,
    halted := false, active := [1], input := [], output := [] }

/-- After the Load Value of scenario 1. -/
def scen1_1 : UM := { scen1_0.wr 2 0x41 with pc := 1 }

/-- Scenario 1 with the Halt word `70000000` (opcode 7) in second place. -/
def halt1_bytes : List Byte := [0xD4, 0, 0, 0x41, 0x70, 0, 0, 0]

/-- The machine loaded with `halt1_bytes`. -/
def halt1_0 : UM :=
  { R := fun _ => 0, arrays := [[0xD4000041, 0x70000000]], free_ids := [], pc := 0,
    halted := false, active := [1], input := [], output := [] }

/-- After the Load Value of `halt1_bytes`. -/
def halt1_1 : UM := { halt1_0.wr 2 0x41 with pc := 1 }

/-- After the Halt of `halt1_bytes`. -/
def halt1_2 : UM := { halt1_1 with halted := true, pc := 2 }

/-- Scenario 3 as the specification writes it: `D2000030`, `D4000009`, `3000008A`,
`A0000003`, then Halt (`70000000`). -/
def scen3_bytes : List Byte :=
  [0xD2, 0, 0, 0x30, 0xD4, 0, 0, 0x09, 0x30, 0, 0, 0x8A, 0xA0, 0, 0, 0x03, 0x70, 0, 0, 0]

/-- The words of `scen3_bytes`. -/
def scen3_prog : List Nat := [0xD2000030, 0xD4000009, 0x3000008A, 0xA0000003, 0x70000000]

/-- The machine loaded with `scen3_bytes`. -/
def scen3_0 : UM :=
  { R := fun _ => 0, arrays := [scen3_prog], free_ids := [], pc := 0, halted := false,
    active := [1], input := [], output := [] }

/-- Scenario 3 after `R[1] = 0x30`. -/
def scen3_1 : UM := { scen3_0.wr 1 0x30 with pc := 1 }

/-- Scenario 3 after `R[2] = 0x09`. -/
def scen3_2 : UM := { scen3_1.wr 2 0x09 with pc := 2 }

/-- Scenario 3 after the Addition: the sum went to `R[2]`. -/
def scen3_3 : UM := { scen3_2.wr 2 0x39 with pc := 3 }

/-- Scenario 3 after the Output: the byte printed is `R[3] = 0`. -/
def scen3_4 : UM := { scen3_3 with output := [0], pc := 4 }

/-- The final state of scenario 3. -/
def scen3_end : UM := { scen3_4 with halted := true, pc := 5 }

/-- Scenario 3 with the Addition word `300000CA` (A = 3, B = 1, C = 2). -/
def add3_bytes : List Byte :=
  [0xD2, 0, 0, 0x30, 0xD4, 0, 0, 0x09, 0x30, 0, 0, 0xCA, 0xA0, 0, 0, 0x03, 0x70, 0, 0, 0]

/-- The words of `add3_bytes`. -/
def add3_prog : List Nat := [0xD2000030, 0xD4000009, 0x300000CA, 0xA0000003, 0x70000000]

/-- The machine loaded with `add3_bytes`. -/
def add3_0 : UM :=
  { R := fun _ => 0, arrays := [add3_prog], free_ids := [], pc := 0, halted := false,
    active := [1], input := [], output := [] }

/-- The program `add3_bytes` after `R[1] = 0x30`. -/
def add3_1 : UM := { add3_0.wr 1 0x30 with pc := 1 }

/-- The program `add3_bytes` after `R[2] = 0x09`. -/
def add3_2 : UM := { add3_1.wr 2 0x09 with pc := 2 }

/-- The program `add3_bytes` after the Addition: the sum went to `R[3]`. -/
def add3_3 : UM := { add3_2.wr 3 0x39 with pc := 3 }

/-- The program `add3_bytes` after the Output of `R[3] = 0x39`. -/
def add3_4 : UM := { add3_3 with output := [0x39], pc := 4 }

/-- The final state of `add3_bytes`. -/
def add3_end : UM := { add3_4 with halted := true, pc := 5 }

/-- Word `i` of a byte sequence: `b[4i]·2^24 + b[4i+1]·2^16 + b[4i+2]·2^8 + b[4i+3]`. -/
def word_at (bytes : List Byte) (i : Nat) : Nat :=
  (bytes.getD (4 * i) 0).val * 2 ^ 24 + (bytes.getD (4 * i + 1) 0).val * 2 ^ 16 +
    (bytes.getD (4 * i + 2) 0).val * 2 ^ 8 + (bytes.getD (4 * i + 3) 0).val

/-- The machine a loader leaves for an empty program file. -/
def empty_state : UM :=
  { R := fun _ => 0, arrays := [[]], free_ids := [], pc := 0, halted := false,
    active := [1], input := [], output := [] }

/-- Sequences of non-failing cycles after each of which segment `id` is active. -/
inductive LiveSteps (id : Nat) : UM → UM → Prop
  | refl (s : UM) : LiveSteps id s s
  | step (s t u : UM) : cycle s = Except.ok t → t.isActive id → LiveSteps id t u →
      LiveSteps id s u

/-- A machine about to write `R[3] = 0x61` at offset `R[4] = 2` of the active segment
`R[2] = 1`, which holds `[5, 6, 7, 8]`. -/
def amend_state : UM :=
  { R := fun r => if r = 2 then 1 else if r = 3 then 0x61 else if r = 4 then 2 else 0,
    arrays := [[0x200000A3], [5, 6, 7, 8]], free_ids := [], pc := 0, halted := false,
    active := [1, 1], input := [], output := [] }

/-- The machine `amend_state` after its Array Amendment. -/
def amend_done : UM :=
  { amend_state with arrays := [[0x200000A3], [5, 6, 0x61, 8]], pc := 1 }

/-- Well-formedness of the machine state: the words are 32-bit, the pool and its flags
are parallel, segment 0 is live, and the recycling stack lists exactly the dead slots. -/
structure WF (s : UM) : Prop where
  nonempty : 0 < s.arrays.length
  len_eq : s.active.length = s.arrays.length
  len_le : s.arrays.length ≤ 4294967296
  act0 : s.active.getD 0 0 = 1
  flags : ∀ i, s.active.getD i 0 = 0 ∨ s.active.getD i 0 = 1
  regs : ∀ r, s.R r < 4294967296
  pc_lt : s.pc < 4294967296
  words : ∀ i j, (s.arrays.getD i []).getD j 0 < 4294967296
  free_sound : ∀ id ∈ s.free_ids, id ≠ 0 ∧ id < s.arrays.length ∧ s.active.getD id 0 = 0
  free_complete : ∀ i, i < s.arrays.length → s.active.getD i 0 = 0 → i ∈ s.free_ids
  free_nodup : s.free_ids.Nodup
  empty_inactive : ∀ i, i < s.arrays.length → s.active.getD i 0 = 0 → s.arrays.getD i [] = []

/-! ## Lists as vectors -/

theorem getD_set_eq {α : Type} (l : List α) (i j : Nat) (x d : α) :
    (l.set i x).getD j d = if i = j ∧ i < l.length then x else l.getD j d := by
  simp only [List.getD_eq_getElem?_getD, List.getElem?_set]
  by_cases hij : i = j
  · subst hij
    by_cases hl : i < l.length
    · simp [hl]
    · have : l[i]? = none := List.getElem?_eq_none (by omega)
      simp [hl, this]
  · simp [hij]

theorem getD_push {α : Type} (l : List α) (j : Nat) (x d : α) :
    (l ++ [x]).getD j d = if j < l.length then l.getD j d else if j = l.length then x else d := by
  simp only [List.getD_eq_getElem?_getD, List.getElem?_append]
  by_cases h1 : j < l.length
  · simp [h1]
  · by_cases h2 : j = l.length
    · subst h2; simp
    · have : j - l.length ≠ 0 := by omega
      obtain ⟨k, hk⟩ := Nat.exists_eq_succ_of_ne_zero this
      simp [h1, h2, hk]

theorem getD_replicate_zero (n j : Nat) : (List.replicate n 0).getD j 0 = 0 := by
  simp only [List.getD_eq_getElem?_getD, List.getElem?_replicate]
  split <;> rfl

/-! ## The allocator -/

theorem alloc_array_cases (s : UM) (h : WF s) (n : Nat) :
    (∃ l id, s.free_ids = l ++ [id] ∧ id ≠ 0 ∧ id < s.arrays.length ∧
        s.active.getD id 0 = 0 ∧ id ∉ l ∧
        alloc_array s n = Except.ok (id, s.recycled l id n)) ∨
    (s.free_ids = [] ∧ s.arrays.length < 4294967296 ∧
        alloc_array s n = Except.ok (s.arrays.length, s.minted n)) ∨
    (s.free_ids = [] ∧ s.arrays.length = 4294967296 ∧
        alloc_array s n = Except.error "internal: allocated id 0 (forbidden)") := by
  cases hl : s.free_ids.getLast? with
  | some id =>
    left
    have hsplit : s.free_ids.dropLast ++ [id] = s.free_ids :=
      List.dropLast_append_getLast? id (by simp [hl])
    have hmem : id ∈ s.free_ids := by rw [← hsplit]; simp
    obtain ⟨h0, hlt, hact⟩ := h.free_sound id hmem
    have hnd := h.free_nodup
    rw [← hsplit] at hnd
    have hnot : id ∉ s.free_ids.dropLast := by
      intro hin
      have := List.nodup_append.mp hnd
      exact this.2.2 hin (by simp)
    refine ⟨s.free_ids.dropLast, id, hsplit.symm, h0, hlt, hact, hnot, ?_⟩
    have hlt2 : ¬ (id ≥ s.arrays.length) := by omega
    have hact2 := hact
    simp only [List.getD_eq_getElem?_getD] at hact2
    simp [alloc_array, hl, hlt2, hact2, h0, UM.recycled]
  | none =>
    right
    have hnil : s.free_ids = [] := List.getLast?_eq_none_iff.mp hl
    have hle := h.len_le
    by_cases hlen : s.arrays.length = 4294967296
    · right
      refine ⟨hnil, hlen, ?_⟩
      simp [alloc_array, hl, hlen, fail]
    · left
      have hlt : s.arrays.length < 4294967296 := by omega
      have hmod : s.arrays.length % 4294967296 = s.arrays.length := Nat.mod_eq_of_lt hlt
      have hne : s.arrays.length ≠ 0 := by have := h.nonempty; omega
      refine ⟨hnil, hlt, ?_⟩
      simp [alloc_array, hl, hmod, hne, UM.minted]

theorem WF.wr {s : UM} (h : WF s) (i v : Nat) (hv : v < 4294967296) : WF (s.wr i v) := by
  refine { h with regs := ?_ }
  intro r
  show Function.update s.R (Fin.ofNat i) v r < 4294967296
  by_cases hr : r = Fin.ofNat i
  · subst hr; simpa using hv
  · rw [Function.update_noteq hr]; exact h.regs r

theorem WF.recycled {s : UM} (h : WF s) {l : List Nat} {id : Nat} (n : Nat)
    (hs : s.free_ids = l ++ [id]) (hlt : id < s.arrays.length) (hnot : id ∉ l) :
    WF (s.recycled l id n) := by
  have hnd := h.free_nodup
  rw [hs] at hnd
  have hsound := h.free_sound
  have hcomp := h.free_complete
  rw [hs] at hsound hcomp
  have hlt2 : id < s.active.length := by rw [h.len_eq]; exact hlt
  constructor
  · show 0 < (s.arrays.set id _).length
    rw [List.length_set]; exact h.nonempty
  · show (s.active.set id 1).length = (s.arrays.set id _).length
    rw [List.length_set, List.length_set]; exact h.len_eq
  · show (s.arrays.set id _).length ≤ _
    rw [List.length_set]; exact h.len_le
  · show (s.active.set id 1).getD 0 0 = 1
    rw [getD_set_eq]; split
    · rfl
    · exact h.act0
  · intro i
    show (s.active.set id 1).getD i 0 = 0 ∨ (s.active.set id 1).getD i 0 = 1
    rw [getD_set_eq]; split
    · right; rfl
    · exact h.flags i
  · exact h.regs
  · exact h.pc_lt
  · intro i j
    show ((s.arrays.set id _).getD i []).getD j 0 < _
    rw [getD_set_eq]; split
    · rw [getD_replicate_zero]; decide
    · exact h.words i j
  · intro x hx
    show x ≠ 0 ∧ x < (s.arrays.set id _).length ∧ (s.active.set id 1).getD x 0 = 0
    change x ∈ l at hx
    have hx2 := hsound x (by simp [hx])
    have hne : id ≠ x := fun e => hnot (e ▸ hx)
    rw [List.length_set, getD_set_eq, if_neg (fun c => hne c.1)]
    exact hx2
  · intro i hi hact
    change i < (s.arrays.set id _).length at hi
    change (s.active.set id 1).getD i 0 = 0 at hact
    show i ∈ l
    rw [List.length_set] at hi
    rw [getD_set_eq] at hact
    split at hact
    · exact absurd hact (by decide)
    · have := hcomp i hi hact
      rcases List.mem_append.mp this with hm | hm
      · exact hm
      · rename_i hc
        simp only [List.mem_singleton] at hm
        exact absurd ⟨hm.symm, hlt2⟩ hc
  · exact (List.nodup_append.mp hnd).1
  · intro i hi hact
    change i < (s.arrays.set id _).length at hi
    change (s.active.set id 1).getD i 0 = 0 at hact
    show (s.arrays.set id _).getD i [] = []
    rw [List.length_set] at hi
    rw [getD_set_eq] at hact ⊢
    split at hact
    · exact absurd hact (by decide)
    · rename_i hc
      have hc2 : ¬ (id = i ∧ id < s.arrays.length) := fun c => hc ⟨c.1, hlt2⟩
      rw [if_neg hc2]
      exact h.empty_inactive i hi hact

theorem WF.minted {s : UM} (h : WF s) (n : Nat)
    (hnil : s.free_ids = []) (hlt : s.arrays.length < 4294967296) :
    WF (s.minted n) := by
  have hcomp := h.free_complete
  rw [hnil] at hcomp
  have hallact : ∀ i, i < s.arrays.length → s.active.getD i 0 ≠ 0 := by
    intro i hi hz
    exact absurd (hcomp i hi hz) (by simp)
  constructor
  · show 0 < (s.arrays ++ [_]).length
    simp
  · show (s.active ++ [1]).length = (s.arrays ++ [_]).length
    simp [h.len_eq]
  · show (s.arrays ++ [_]).length ≤ _
    simp; omega
  · show (s.active ++ [1]).getD 0 0 = 1
    rw [getD_push, if_pos (by rw [h.len_eq]; exact h.nonempty)]; exact h.act0
  · intro i
    show (s.active ++ [1]).getD i 0 = 0 ∨ (s.active ++ [1]).getD i 0 = 1
    rw [getD_push]; split
    · exact h.flags i
    · split
      · right; rfl
      · left; rfl
  · exact h.regs
  · exact h.pc_lt
  · intro i j
    show ((s.arrays ++ [_]).getD i []).getD j 0 < _
    rw [getD_push]; split
    · exact h.words i j
    · split
      · rw [getD_replicate_zero]; decide
      · simp
  · intro x hx
    change x ∈ s.free_ids at hx
    rw [hnil] at hx
    exact absurd hx (by simp)
  · intro i hi hact
    change i < (s.arrays ++ [_]).length at hi
    change (s.active ++ [1]).getD i 0 = 0 at hact
    rw [getD_push, h.len_eq] at hact
    simp at hi
    split at hact
    · rename_i hc; exact absurd hact (hallact i hc)
    · split at hact
      · exact absurd hact (by decide)
      · omega
  · exact h.free_nodup
  · intro i hi hact
    change i < (s.arrays ++ [_]).length at hi
    change (s.active ++ [1]).getD i 0 = 0 at hact
    rw [getD_push, h.len_eq] at hact
    simp at hi
    split at hact
    · rename_i hc; exact absurd hact (hallact i hc)
    · split at hact
      · exact absurd hact (by decide)
      · omega

/-! ## Deallocation, amendment and program load -/

theorem free_array_ok (s : UM) (id : Nat) (h0 : id ≠ 0) (hact : s.isActive id) :
    free_array s id = Except.ok (s.freed id) := by
  obtain ⟨hlt, hfl⟩ := hact
  have hlt2 : ¬ (id ≥ s.arrays.length) := by omega
  unfold free_array
  rw [if_neg h0, if_neg (by intro c; rcases c with c | c; exact hlt2 c; exact hfl c)]
  rfl

theorem free_array_err (s : UM) (id : Nat) (h : id = 0 ∨ ¬ s.isActive id) :
    ∃ e, free_array s id = Except.error e := by
  unfold free_array
  by_cases h0 : id = 0
  · rw [if_pos h0]; exact ⟨_, rfl⟩
  · rw [if_neg h0]
    have hn : ¬ s.isActive id := by rcases h with h | h; exact absurd h h0; exact h
    have : id ≥ s.arrays.length ∨ s.active.getD id 0 = 0 := by
      unfold UM.isActive at hn
      by_cases c : id < s.arrays.length
      · right; by_contra c2; exact hn ⟨c, c2⟩
      · left; omega
    rw [if_pos this]; exact ⟨_, rfl⟩

theorem WF.freed {s : UM} (h : WF s) {id : Nat} (h0 : id ≠ 0) (hact : s.isActive id) :
    WF (s.freed id) := by
  obtain ⟨hlt, hfl⟩ := hact
  have hlt2 : id < s.active.length := by rw [h.len_eq]; exact hlt
  constructor
  · show 0 < (s.arrays.set id _).length
    rw [List.length_set]; exact h.nonempty
  · show (s.active.set id 0).length = (s.arrays.set id _).length
    rw [List.length_set, List.length_set]; exact h.len_eq
  · show (s.arrays.set id _).length ≤ _
    rw [List.length_set]; exact h.len_le
  · show (s.active.set id 0).getD 0 0 = 1
    rw [getD_set_eq, if_neg (fun c => h0 c.1)]; exact h.act0
  · intro i
    show (s.active.set id 0).getD i 0 = 0 ∨ (s.active.set id 0).getD i 0 = 1
    rw [getD_set_eq]; split
    · left; rfl
    · exact h.flags i
  · exact h.regs
  · exact h.pc_lt
  · intro i j
    show ((s.arrays.set id _).getD i []).getD j 0 < _
    rw [getD_set_eq]; split
    · simp
    · exact h.words i j
  · intro x hx
    change x ∈ s.free_ids ++ [id] at hx
    show x ≠ 0 ∧ x < (s.arrays.set id _).length ∧ (s.active.set id 0).getD x 0 = 0
    rw [List.length_set, getD_set_eq]
    rcases List.mem_append.mp hx with hm | hm
    · obtain ⟨a, b, c⟩ := h.free_sound x hm
      refine ⟨a, b, ?_⟩
      split
      · rfl
      · exact c
    · simp only [List.mem_singleton] at hm
      subst hm
      exact ⟨h0, hlt, by rw [if_pos ⟨rfl, hlt2⟩]⟩
  · intro i hi hz
    change i < (s.arrays.set id _).length at hi
    change (s.active.set id 0).getD i 0 = 0 at hz
    show i ∈ s.free_ids ++ [id]
    rw [List.length_set] at hi
    rw [getD_set_eq] at hz
    by_cases c : id = i
    · simp [c]
    · rw [if_neg (fun d => c d.1)] at hz
      exact List.mem_append_left _ (h.free_complete i hi hz)
  · show (s.free_ids ++ [id]).Nodup
    refine List.nodup_append.mpr ⟨h.free_nodup, List.nodup_singleton id, ?_⟩
    intro x hx hx2
    simp only [List.mem_singleton] at hx2
    subst hx2
    exact hfl (h.free_sound x hx).2.2
  · intro i hi hz
    change i < (s.arrays.set id _).length at hi
    change (s.active.set id 0).getD i 0 = 0 at hz
    show (s.arrays.set id _).getD i [] = []
    rw [List.length_set] at hi
    rw [getD_set_eq] at hz ⊢
    by_cases c : id = i
    · rw [if_pos ⟨c, hlt⟩]
    · rw [if_neg (fun d => c d.1)] at hz ⊢
      exact h.empty_inactive i hi hz


theorem WF.amended {s : UM} (h : WF s) {id off v : Nat} (hact : s.isActive id)
    (hv : v < 4294967296) : WF (s.amended id off v) := by
  obtain ⟨hlt, hfl⟩ := hact
  refine { h with nonempty := ?_, len_eq := ?_, len_le := ?_, words := ?_, free_sound := ?_,
                  free_complete := ?_, empty_inactive := ?_ }
  · show 0 < (s.arrays.set id _).length
    rw [List.length_set]; exact h.nonempty
  · show s.active.length = (s.arrays.set id _).length
    rw [List.length_set]; exact h.len_eq
  · show (s.arrays.set id _).length ≤ _
    rw [List.length_set]; exact h.len_le
  · intro i j
    show ((s.arrays.set id _).getD i []).getD j 0 < _
    rw [getD_set_eq]; split
    · rw [getD_set_eq]; split
      · exact hv
      · exact h.words id j
    · exact h.words i j
  · intro x hx
    show x ≠ 0 ∧ x < (s.arrays.set id _).length ∧ _
    rw [List.length_set]; exact h.free_sound x hx
  · intro i hi hz
    change i < (s.arrays.set id _).length at hi
    rw [List.length_set] at hi
    exact h.free_complete i hi hz
  · intro i hi hz
    change i < (s.arrays.set id _).length at hi
    change s.active.getD i 0 = 0 at hz
    show (s.arrays.set id _).getD i [] = []
    rw [List.length_set] at hi
    rw [getD_set_eq]
    have c : ¬ (id = i ∧ id < s.arrays.length) := by
      intro d; rw [← d.1] at hz; exact hfl hz
    rw [if_neg c]
    exact h.empty_inactive i hi hz


theorem WF.loaded {s : UM} (h : WF s) {id npc : Nat} (hpc : npc < 4294967296) :
    WF (s.loaded id npc) := by
  have h0 : s.active.getD 0 0 ≠ 0 := by rw [h.act0]; decide
  refine { h with nonempty := ?_, len_eq := ?_, len_le := ?_, words := ?_, free_sound := ?_,
                  free_complete := ?_, empty_inactive := ?_, pc_lt := hpc }
  · show 0 < (s.arrays.set 0 _).length
    rw [List.length_set]; exact h.nonempty
  · show s.active.length = (s.arrays.set 0 _).length
    rw [List.length_set]; exact h.len_eq
  · show (s.arrays.set 0 _).length ≤ _
    rw [List.length_set]; exact h.len_le
  · intro i j
    show ((s.arrays.set 0 _).getD i []).getD j 0 < _
    rw [getD_set_eq]; split
    · exact h.words id j
    · exact h.words i j
  · intro x hx
    show x ≠ 0 ∧ x < (s.arrays.set 0 _).length ∧ _
    rw [List.length_set]; exact h.free_sound x hx
  · intro i hi hz
    change i < (s.arrays.set 0 _).length at hi
    rw [List.length_set] at hi
    exact h.free_complete i hi hz
  · intro i hi hz
    change i < (s.arrays.set 0 _).length at hi
    change s.active.getD i 0 = 0 at hz
    show (s.arrays.set 0 _).getD i [] = []
    rw [List.length_set] at hi
    rw [getD_set_eq]
    have c : ¬ (0 = i ∧ 0 < s.arrays.length) := by
      intro d; rw [← d.1] at hz; exact h0 hz
    rw [if_neg c]
    exact h.empty_inactive i hi hz

/-! ## The dispatch, opcode by opcode -/

theorem check_active_ok (s : UM) (id : Nat) (h : s.isActive id) :
    check_active s id = Except.ok () := by
  obtain ⟨hlt, hfl⟩ := h
  unfold check_active
  rw [if_neg (by intro c; rcases c with c | c; omega; exact hfl c)]

theorem check_active_err (s : UM) (id : Nat) (h : ¬ s.isActive id) :
    check_active s id = Except.error ("accessing non-active array id=" ++ toString id) := by
  have : id ≥ s.arrays.length ∨ s.active.getD id 0 = 0 := by
    unfold UM.isActive at h
    by_cases c : id < s.arrays.length
    · right; by_contra c2; exact h ⟨c, c2⟩
    · left; omega
  unfold check_active
  rw [if_pos this]; rfl

theorem check_bounds_ok (s : UM) (id off : Nat) (h : s.isActive id) (hb : off < s.seglen id) :
    check_bounds s id off = Except.ok () := by
  obtain ⟨hlt, hfl⟩ := h
  unfold check_bounds
  rw [if_neg (by intro c; rcases c with c | c; omega; exact hfl c),
    if_neg (by unfold UM.seglen at hb; omega)]

theorem check_bounds_err (s : UM) (id off : Nat) (h : s.isActive id) (hb : s.seglen id ≤ off) :
    check_bounds s id off = Except.error "array index out of bounds" := by
  obtain ⟨hlt, hfl⟩ := h
  unfold check_bounds
  rw [if_neg (by intro c; rcases c with c | c; omega; exact hfl c),
    if_pos (by unfold UM.seglen at hb; omega)]
  rfl

theorem dispatch_13 (s : UM) (w : Nat) (h : OP w = 13) :
    dispatch s w = Except.ok (s.wr ((w >>> 25) &&& 7) (w &&& 0x1FFFFFF), true) := by
  simp [dispatch, h]

theorem dispatch_0 (s : UM) (w : Nat) (h : OP w = 0) :
    dispatch s w =
      Except.ok (if s.rd (C w) ≠ 0 then s.wr (A w) (s.rd (B w)) else s, true) := by
  simp [dispatch, h]

theorem dispatch_1_ok (s : UM) (w : Nat) (h : OP w = 1) (ha : s.isActive (s.rd (B w)))
    (hb : s.rd (C w) < s.seglen (s.rd (B w))) :
    dispatch s w =
      Except.ok (s.wr (A w) ((s.arrays.getD (s.rd (B w)) []).getD (s.rd (C w)) 0), true) := by
  simp only [dispatch, h, check_active_ok s _ ha, check_bounds_ok s _ _ ha hb]
  simp

theorem dispatch_1_err (s : UM) (w : Nat) (h : OP w = 1)
    (hbad : ¬ s.isActive (s.rd (B w)) ∨ s.seglen (s.rd (B w)) ≤ s.rd (C w)) :
    ∃ e, dispatch s w = Except.error e := by
  by_cases ha : s.isActive (s.rd (B w))
  · have hb : s.seglen (s.rd (B w)) ≤ s.rd (C w) := by
      rcases hbad with c | c; exact absurd ha c; exact c
    refine ⟨"array index out of bounds", ?_⟩
    simp only [dispatch, h, check_active_ok s _ ha, check_bounds_err s _ _ ha hb]
    simp
  · refine ⟨"accessing non-active array id=" ++ toString (s.rd (B w)), ?_⟩
    simp only [dispatch, h, check_active_err s _ ha]
    simp

theorem dispatch_2_ok (s : UM) (w : Nat) (h : OP w = 2) (ha : s.isActive (s.rd (A w)))
    (hb : s.rd (B w) < s.seglen (s.rd (A w))) :
    dispatch s w = Except.ok (s.amended (s.rd (A w)) (s.rd (B w)) (s.rd (C w)), true) := by
  simp only [dispatch, h, check_active_ok s _ ha, check_bounds_ok s _ _ ha hb]
  simp [UM.amended]

theorem dispatch_2_err (s : UM) (w : Nat) (h : OP w = 2)
    (hbad : ¬ s.isActive (s.rd (A w)) ∨ s.seglen (s.rd (A w)) ≤ s.rd (B w)) :
    ∃ e, dispatch s w = Except.error e := by
  by_cases ha : s.isActive (s.rd (A w))
  · have hb : s.seglen (s.rd (A w)) ≤ s.rd (B w) := by
      rcases hbad with c | c; exact absurd ha c; exact c
    refine ⟨"array index out of bounds", ?_⟩
    simp only [dispatch, h, check_active_ok s _ ha, check_bounds_err s _ _ ha hb]
    simp
  · refine ⟨"accessing non-active array id=" ++ toString (s.rd (A w)), ?_⟩
    simp only [dispatch, h, check_active_err s _ ha]
    simp

theorem dispatch_3 (s : UM) (w : Nat) (h : OP w = 3) :
    dispatch s w =
      Except.ok (s.wr (A w) ((s.rd (B w) + s.rd (C w)) % 4294967296), true) := by
  simp [dispatch, h]

theorem dispatch_4 (s : UM) (w : Nat) (h : OP w = 4) :
    dispatch s w =
      Except.ok (s.wr (A w) ((s.rd (B w) * s.rd (C w)) % 4294967296), true) := by
  simp [dispatch, h]

theorem dispatch_5_ok (s : UM) (w : Nat) (h : OP w = 5) (hc : s.rd (C w) ≠ 0) :
    dispatch s w =
      Except.ok (s.wr (A w) ((s.rd (B w) / s.rd (C w)) % 4294967296), true) := by
  simp [dispatch, h, hc]

theorem dispatch_5_err (s : UM) (w : Nat) (h : OP w = 5) (hc : s.rd (C w) = 0) :
    dispatch s w = Except.error "Division by zero" := by
  simp [dispatch, h, hc, fail]

theorem dispatch_6 (s : UM) (w : Nat) (h : OP w = 6) :
    dispatch s w = Except.ok (s.wr (A w) (not32 (s.rd (B w) &&& s.rd (C w))), true) := by
  simp [dispatch, h]

theorem dispatch_7 (s : UM) (w : Nat) (h : OP w = 7) :
    dispatch s w = Except.ok ({ s with halted := true }, true) := by
  simp [dispatch, h]

theorem dispatch_8_ok (s : UM) (w : Nat) (h : OP w = 8) {id : Nat} {t : UM}
    (ha : alloc_array s (s.rd (C w)) = Except.ok (id, t)) :
    dispatch s w = Except.ok (t.wr (B w) id, true) := by
  simp [dispatch, h, ha]

theorem dispatch_8_err (s : UM) (w : Nat) (h : OP w = 8) {e : String}
    (ha : alloc_array s (s.rd (C w)) = Except.error e) :
    dispatch s w = Except.error e := by
  simp [dispatch, h, ha]

theorem dispatch_9_ok (s : UM) (w : Nat) (h : OP w = 9) {t : UM}
    (ha : free_array s (s.rd (C w)) = Except.ok t) :
    dispatch s w = Except.ok (t, true) := by
  simp [dispatch, h, ha]

theorem dispatch_9_err (s : UM) (w : Nat) (h : OP w = 9) {e : String}
    (ha : free_array s (s.rd (C w)) = Except.error e) :
    dispatch s w = Except.error e := by
  simp [dispatch, h, ha]

theorem dispatch_10_ok (s : UM) (w : Nat) (h : OP w = 10) (hc : s.rd (C w) ≤ 255) :
    dispatch s w =
      Except.ok ({ s with output := s.output ++ [s.rd (C w) % 256] }, true) := by
  have : ¬ (s.rd (C w) > 255) := by omega
  simp [dispatch, h, this]

theorem dispatch_10_err (s : UM) (w : Nat) (h : OP w = 10) (hc : 255 < s.rd (C w)) :
    dispatch s w = Except.error "Output value out of range" := by
  simp [dispatch, h, hc, fail]

theorem dispatch_11_eof (s : UM) (w : Nat) (h : OP w = 11) (hi : s.input = []) :
    dispatch s w = Except.ok (s.wr (C w) 0xFFFFFFFF, true) := by
  simp [dispatch, h, hi]

theorem dispatch_11_byte (s : UM) (w : Nat) (h : OP w = 11) {ch : Byte} {rest : List Byte}
    (hi : s.input = ch :: rest) :
    dispatch s w =
      Except.ok (({ s with input := rest }).wr (C w) (ch.val % 256), true) := by
  simp [dispatch, h, hi]

theorem dispatch_12_zero (s : UM) (w : Nat) (h : OP w = 12) (hb : s.rd (B w) = 0) :
    dispatch s w = Except.ok ({ s with pc := s.rd (C w) }, false) := by
  simp [dispatch, h, hb]

theorem dispatch_12_ok (s : UM) (w : Nat) (h : OP w = 12) (hb : s.rd (B w) ≠ 0)
    (ha : s.isActive (s.rd (B w))) :
    dispatch s w = Except.ok (s.loaded (s.rd (B w)) (s.rd (C w)), false) := by
  simp only [dispatch, h, check_active_ok s _ ha]
  simp [hb, UM.loaded]

theorem dispatch_12_err (s : UM) (w : Nat) (h : OP w = 12) (hb : s.rd (B w) ≠ 0)
    (ha : ¬ s.isActive (s.rd (B w))) :
    ∃ e, dispatch s w = Except.error e := by
  refine ⟨"accessing non-active array id=" ++ toString (s.rd (B w)), ?_⟩
  simp only [dispatch, h, check_active_err s _ ha]
  simp [hb]

theorem dispatch_bad (s : UM) (w : Nat) (h : 13 < OP w) :
    dispatch s w = Except.error ("Unknown operation code: " ++ toString (OP w)) := by
  have h13 : OP w ≠ 13 := by omega
  have h0 : OP w ≠ 0 := by omega
  have h1 : OP w ≠ 1 := by omega
  have h2 : OP w ≠ 2 := by omega
  have h3 : OP w ≠ 3 := by omega
  have h4 : OP w ≠ 4 := by omega
  have h5 : OP w ≠ 5 := by omega
  have h6 : OP w ≠ 6 := by omega
  have h7 : OP w ≠ 7 := by omega
  have h8 : OP w ≠ 8 := by omega
  have h9 : OP w ≠ 9 := by omega
  have h10 : OP w ≠ 10 := by omega
  have h11 : OP w ≠ 11 := by omega
  have h12 : OP w ≠ 12 := by omega
  simp [dispatch, h13, h0, h1, h2, h3, h4, h5, h6, h7, h8, h9, h10, h11, h12, fail]

/-! ## The invariant is preserved -/

theorem WF.congr {s t : UM} (h : WF s) (hR : t.R = s.R) (ha : t.arrays = s.arrays)
    (hf : t.free_ids = s.free_ids) (hact : t.active = s.active) (hpc : t.pc < 4294967296) :
    WF t := by
  obtain ⟨R, arrays, free_ids, pc, halted, active, input, output⟩ := t
  simp only at hR ha hf hact hpc
  subst hR ha hf hact
  exact { h with pc_lt := hpc }

theorem op_cases (n : Nat) :
    n = 0 ∨ n = 1 ∨ n = 2 ∨ n = 3 ∨ n = 4 ∨ n = 5 ∨ n = 6 ∨ n = 7 ∨ n = 8 ∨ n = 9 ∨
      n = 10 ∨ n = 11 ∨ n = 12 ∨ n = 13 ∨ 13 < n := by
  omega

theorem rd_lt {s : UM} (h : WF s) (i : Nat) : s.rd i < 4294967296 := h.regs _

theorem ok_pair_inj {t t1 : UM} {a a1 : Bool}
    (h : (Except.ok (t1, a1) : Except String (UM × Bool)) = Except.ok (t, a)) :
    t1 = t ∧ a1 = a := by
  simpa using h

theorem alloc_array_WF {s : UM} (h : WF s) {n id : Nat} {t : UM}
    (ha : alloc_array s n = Except.ok (id, t)) : WF t ∧ id < 4294967296 := by
  rcases alloc_array_cases s h n with ⟨l, i, hs, _, hlt, _, hnot, he⟩ | ⟨hnil, hlt, he⟩ |
    ⟨_, _, he⟩
  · rw [he] at ha
    simp only [Except.ok.injEq, Prod.mk.injEq] at ha
    obtain ⟨rfl, rfl⟩ := ha
    exact ⟨h.recycled n hs hlt hnot, by have := h.len_le; omega⟩
  · rw [he] at ha
    simp only [Except.ok.injEq, Prod.mk.injEq] at ha
    obtain ⟨rfl, rfl⟩ := ha
    exact ⟨h.minted n hnil hlt, hlt⟩
  · rw [he] at ha; cases ha

theorem dispatch_WF {s : UM} (h : WF s) (w : Nat) {t : UM} {adv : Bool}
    (hok : dispatch s w = Except.ok (t, adv)) : WF t := by
  rcases op_cases (OP w) with o | o | o | o | o | o | o | o | o | o | o | o | o | o | o
  · rw [dispatch_0 s w o] at hok
    obtain ⟨rfl, -⟩ := ok_pair_inj hok
    split
    · exact h.wr _ _ (rd_lt h _)
    · exact h
  · by_cases c : s.isActive (s.rd (B w)) ∧ s.rd (C w) < s.seglen (s.rd (B w))
    · rw [dispatch_1_ok s w o c.1 c.2] at hok
      obtain ⟨rfl, -⟩ := ok_pair_inj hok
      exact h.wr _ _ (h.words _ _)
    · obtain ⟨e, he⟩ := dispatch_1_err s w o (by by_contra d; push_neg at d; exact c ⟨d.1, d.2⟩)
      rw [he] at hok; cases hok
  · by_cases c : s.isActive (s.rd (A w)) ∧ s.rd (B w) < s.seglen (s.rd (A w))
    · rw [dispatch_2_ok s w o c.1 c.2] at hok
      obtain ⟨rfl, -⟩ := ok_pair_inj hok
      exact h.amended c.1 (rd_lt h _)
    · obtain ⟨e, he⟩ := dispatch_2_err s w o (by by_contra d; push_neg at d; exact c ⟨d.1, d.2⟩)
      rw [he] at hok; cases hok
  · rw [dispatch_3 s w o] at hok
    obtain ⟨rfl, -⟩ := ok_pair_inj hok
    exact h.wr _ _ (Nat.mod_lt _ (by decide))
  · rw [dispatch_4 s w o] at hok
    obtain ⟨rfl, -⟩ := ok_pair_inj hok
    exact h.wr _ _ (Nat.mod_lt _ (by decide))
  · by_cases c : s.rd (C w) = 0
    · rw [dispatch_5_err s w o c] at hok; cases hok
    · rw [dispatch_5_ok s w o c] at hok
      obtain ⟨rfl, -⟩ := ok_pair_inj hok
      exact h.wr _ _ (Nat.mod_lt _ (by decide))
  · rw [dispatch_6 s w o] at hok
    obtain ⟨rfl, -⟩ := ok_pair_inj hok
    exact h.wr _ _ (Nat.mod_lt _ (by decide))
  · rw [dispatch_7 s w o] at hok
    obtain ⟨rfl, -⟩ := ok_pair_inj hok
    exact h.congr rfl rfl rfl rfl h.pc_lt
  · cases ha : alloc_array s (s.rd (C w)) with
    | error e => rw [dispatch_8_err s w o ha] at hok; cases hok
    | ok r =>
      obtain ⟨id, t1⟩ := r
      rw [dispatch_8_ok s w o ha] at hok
      obtain ⟨rfl, -⟩ := ok_pair_inj hok
      obtain ⟨h1, h2⟩ := alloc_array_WF h ha
      exact h1.wr _ _ h2
  · by_cases c : s.rd (C w) ≠ 0 ∧ s.isActive (s.rd (C w))
    · rw [dispatch_9_ok s w o (free_array_ok s _ c.1 c.2)] at hok
      obtain ⟨rfl, -⟩ := ok_pair_inj hok
      exact h.freed c.1 c.2
    · obtain ⟨e, he⟩ := free_array_err s (s.rd (C w))
        (by by_contra d; push_neg at d; exact c ⟨d.1, d.2⟩)
      rw [dispatch_9_err s w o he] at hok; cases hok
  · by_cases c : s.rd (C w) ≤ 255
    · rw [dispatch_10_ok s w o c] at hok
      obtain ⟨rfl, -⟩ := ok_pair_inj hok
      exact h.congr rfl rfl rfl rfl h.pc_lt
    · rw [dispatch_10_err s w o (by omega)] at hok; cases hok
  · cases hi : s.input with
    | nil =>
      rw [dispatch_11_eof s w o hi] at hok
      obtain ⟨rfl, -⟩ := ok_pair_inj hok
      exact h.wr _ _ (by decide)
    | cons ch rest =>
      rw [dispatch_11_byte s w o hi] at hok
      obtain ⟨rfl, -⟩ := ok_pair_inj hok
      exact (h.congr (t := { s with input := rest }) rfl rfl rfl rfl h.pc_lt).wr _ _
        (by omega)
  · by_cases hb : s.rd (B w) = 0
    · rw [dispatch_12_zero s w o hb] at hok
      obtain ⟨rfl, -⟩ := ok_pair_inj hok
      exact h.congr rfl rfl rfl rfl (rd_lt h _)
    · by_cases ha : s.isActive (s.rd (B w))
      · rw [dispatch_12_ok s w o hb ha] at hok
        obtain ⟨rfl, -⟩ := ok_pair_inj hok
        exact h.loaded (rd_lt h _)
      · obtain ⟨e, he⟩ := dispatch_12_err s w o hb ha
        rw [he] at hok; cases hok
  · rw [dispatch_13 s w o] at hok
    obtain ⟨rfl, -⟩ := ok_pair_inj hok
    refine h.wr _ _ ?_
    have : w &&& 0x1FFFFFF ≤ 0x1FFFFFF := Nat.and_le_right
    omega
  · rw [dispatch_bad s w o] at hok; cases hok

theorem cycle_WF {s t : UM} (h : WF s) (hc : cycle s = Except.ok t) : WF t := by
  unfold cycle at hc
  split at hc
  · cases hc
  · split at hc
    · cases hc
    · rename_i um1 adv hd
      have h1 := dispatch_WF h _ hd
      simp only [Except.ok.injEq] at hc
      subst hc
      split
      · exact h1.congr rfl rfl rfl rfl (Nat.mod_lt _ (by decide))
      · exact h1

theorem be_word_lt (b0 b1 b2 b3 : Byte) : be_word b0 b1 b2 b3 < 4294967296 := by
  unfold be_word
  have e0 := b0.isLt
  have e1 := b1.isLt
  have e2 := b2.isLt
  have e3 := b3.isLt
  have p : (4294967296 : Nat) = 2 ^ 32 := by norm_num
  rw [p]
  refine Nat.or_lt_two_pow (Nat.or_lt_two_pow (Nat.or_lt_two_pow ?_ ?_) ?_) ?_
  · rw [Nat.shiftLeft_eq]; omega
  · rw [Nat.shiftLeft_eq]; omega
  · rw [Nat.shiftLeft_eq]; omega
  · omega

theorem read_words_lt (bytes : List Byte) (acc : List Nat) :
    ∀ (prog : List Nat), (∀ j, acc.getD j 0 < 4294967296) →
      read_words bytes acc = Except.ok prog → ∀ j, prog.getD j 0 < 4294967296 := by
  induction bytes, acc using read_words.induct with
  | case1 acc =>
    intro prog hacc h
    simp only [read_words, Except.ok.injEq] at h
    subst h; exact hacc
  | case2 b0 b1 b2 b3 rest acc ih =>
    intro prog hacc h
    rw [read_words] at h
    refine ih prog ?_ h
    intro j
    rw [getD_push]
    split
    · exact hacc j
    · split
      · exact be_word_lt b0 b1 b2 b3
      · decide
  | case3 bytes acc h1 h2 =>
    intro prog hacc h
    rw [read_words] at h
    · cases h
    · exact h1
    · exact h2

theorem load_program_WF {um s : UM} {path : String} {bytes : List Byte}
    (h : load_program um path (some bytes) = Except.ok s) : WF s := by
  unfold load_program at h
  simp only at h
  split at h
  · cases h
  · rename_i prog hp
    simp only [Except.ok.injEq] at h
    subst h
    have hw := read_words_lt bytes [] prog (by intro j; simp) hp
    constructor
    · show 0 < [prog].length
      simp
    · rfl
    · show [prog].length ≤ _
      simp
    · rfl
    · intro i
      show [1].getD i 0 = 0 ∨ [1].getD i 0 = 1
      cases i with
      | zero => right; rfl
      | succ k => left; simp
    · intro r; show 0 < _; decide
    · show 0 < _; decide
    · intro i j
      show ([prog].getD i []).getD j 0 < _
      cases i with
      | zero => exact hw j
      | succ k => simp
    · intro x hx; exact absurd hx (by simp)
    · intro i hi hz
      change i < [prog].length at hi
      change [1].getD i 0 = 0 at hz
      simp at hi
      subst hi
      simp at hz
    · exact List.nodup_nil
    · intro i hi hz
      change i < [prog].length at hi
      change [1].getD i 0 = 0 at hz
      simp at hi
      subst hi
      simp at hz

theorem Reachable.wf {s : UM} (h : Reachable s) : WF s := by
  induction h with
  | load um path bytes s hl => exact load_program_WF hl
  | step s t _ _ hc ih => exact cycle_WF ih hc

/-! ## Shape of a cycle -/

/-- Every successful dispatch is one of the fourteen operations, with its guard passed. -/
theorem dispatch_ok_cases {s : UM} {w : Nat} {t : UM} {adv : Bool}
    (hok : dispatch s w = Except.ok (t, adv)) :
    (OP w = 0 ∧ adv = true ∧ t = if s.rd (C w) ≠ 0 then s.wr (A w) (s.rd (B w)) else s) ∨
    (OP w = 1 ∧ adv = true ∧ s.isActive (s.rd (B w)) ∧ s.rd (C w) < s.seglen (s.rd (B w)) ∧
      t = s.wr (A w) ((s.arrays.getD (s.rd (B w)) []).getD (s.rd (C w)) 0)) ∨
    (OP w = 2 ∧ adv = true ∧ s.isActive (s.rd (A w)) ∧ s.rd (B w) < s.seglen (s.rd (A w)) ∧
      t = s.amended (s.rd (A w)) (s.rd (B w)) (s.rd (C w))) ∨
    (OP w = 3 ∧ adv = true ∧ t = s.wr (A w) ((s.rd (B w) + s.rd (C w)) % 4294967296)) ∨
    (OP w = 4 ∧ adv = true ∧ t = s.wr (A w) ((s.rd (B w) * s.rd (C w)) % 4294967296)) ∨
    (OP w = 5 ∧ adv = true ∧ s.rd (C w) ≠ 0 ∧
      t = s.wr (A w) ((s.rd (B w) / s.rd (C w)) % 4294967296)) ∨
    (OP w = 6 ∧ adv = true ∧ t = s.wr (A w) (not32 (s.rd (B w) &&& s.rd (C w)))) ∨
    (OP w = 7 ∧ adv = true ∧ t = { s with halted := true }) ∨
    (OP w = 8 ∧ adv = true ∧ ∃ id t1, alloc_array s (s.rd (C w)) = Except.ok (id, t1) ∧
      t = t1.wr (B w) id) ∨
    (OP w = 9 ∧ adv = true ∧ s.rd (C w) ≠ 0 ∧ s.isActive (s.rd (C w)) ∧
      t = s.freed (s.rd (C w))) ∨
    (OP w = 10 ∧ adv = true ∧ s.rd (C w) ≤ 255 ∧
      t = { s with output := s.output ++ [s.rd (C w) % 256] }) ∨
    (OP w = 11 ∧ adv = true ∧
      ((s.input = [] ∧ t = s.wr (C w) 0xFFFFFFFF) ∨
        ∃ ch rest, s.input = ch :: rest ∧
          t = ({ s with input := rest }).wr (C w) (ch.val % 256))) ∨
    (OP w = 12 ∧ adv = false ∧
      ((s.rd (B w) = 0 ∧ t = { s with pc := s.rd (C w) }) ∨
        (s.rd (B w) ≠ 0 ∧ s.isActive (s.rd (B w)) ∧
          t = s.loaded (s.rd (B w)) (s.rd (C w))))) ∨
    (OP w = 13 ∧ adv = true ∧ t = s.wr ((w >>> 25) &&& 7) (w &&& 0x1FFFFFF)) := by
  rcases op_cases (OP w) with o | o | o | o | o | o | o | o | o | o | o | o | o | o | o
  · rw [dispatch_0 s w o] at hok
    obtain ⟨rfl, rfl⟩ := ok_pair_inj hok
    exact Or.inl ⟨o, rfl, rfl⟩
  · by_cases c : s.isActive (s.rd (B w)) ∧ s.rd (C w) < s.seglen (s.rd (B w))
    · rw [dispatch_1_ok s w o c.1 c.2] at hok
      obtain ⟨rfl, rfl⟩ := ok_pair_inj hok
      exact Or.inr (Or.inl ⟨o, rfl, c.1, c.2, rfl⟩)
    · obtain ⟨e, he⟩ := dispatch_1_err s w o (by by_contra d; push_neg at d; exact c ⟨d.1, d.2⟩)
      rw [he] at hok; cases hok
  · by_cases c : s.isActive (s.rd (A w)) ∧ s.rd (B w) < s.seglen (s.rd (A w))
    · rw [dispatch_2_ok s w o c.1 c.2] at hok
      obtain ⟨rfl, rfl⟩ := ok_pair_inj hok
      exact Or.inr (Or.inr (Or.inl ⟨o, rfl, c.1, c.2, rfl⟩))
    · obtain ⟨e, he⟩ := dispatch_2_err s w o (by by_contra d; push_neg at d; exact c ⟨d.1, d.2⟩)
      rw [he] at hok; cases hok
  · rw [dispatch_3 s w o] at hok
    obtain ⟨rfl, rfl⟩ := ok_pair_inj hok
    exact Or.inr (Or.inr (Or.inr (Or.inl ⟨o, rfl, rfl⟩)))
  · rw [dispatch_4 s w o] at hok
    obtain ⟨rfl, rfl⟩ := ok_pair_inj hok
    exact Or.inr (Or.inr (Or.inr (Or.inr (Or.inl ⟨o, rfl, rfl⟩))))
  · by_cases c : s.rd (C w) = 0
    · rw [dispatch_5_err s w o c] at hok; cases hok
    · rw [dispatch_5_ok s w o c] at hok
      obtain ⟨rfl, rfl⟩ := ok_pair_inj hok
      exact Or.inr (Or.inr (Or.inr (Or.inr (Or.inr (Or.inl ⟨o, rfl, c, rfl⟩)))))
  · rw [dispatch_6 s w o] at hok
    obtain ⟨rfl, rfl⟩ := ok_pair_inj hok
    exact Or.inr (Or.inr (Or.inr (Or.inr (Or.inr (Or.inr (Or.inl ⟨o, rfl, rfl⟩))))))
  · rw [dispatch_7 s w o] at hok
    obtain ⟨rfl, rfl⟩ := ok_pair_inj hok
    exact Or.inr (Or.inr (Or.inr (Or.inr (Or.inr (Or.inr (Or.inr (Or.inl ⟨o, rfl, rfl⟩)))))))
  · cases ha : alloc_array s (s.rd (C w)) with
    | error e => rw [dispatch_8_err s w o ha] at hok; cases hok
    | ok r =>
      obtain ⟨id, t1⟩ := r
      rw [dispatch_8_ok s w o ha] at hok
      obtain ⟨rfl, rfl⟩ := ok_pair_inj hok
      exact Or.inr (Or.inr (Or.inr (Or.inr (Or.inr (Or.inr (Or.inr (Or.inr
        (Or.inl ⟨o, rfl, id, t1, rfl, rfl⟩))))))))
  · by_cases c : s.rd (C w) ≠ 0 ∧ s.isActive (s.rd (C w))
    · rw [dispatch_9_ok s w o (free_array_ok s _ c.1 c.2)] at hok
      obtain ⟨rfl, rfl⟩ := ok_pair_inj hok
      exact Or.inr (Or.inr (Or.inr (Or.inr (Or.inr (Or.inr (Or.inr (Or.inr (Or.inr
        (Or.inl ⟨o, rfl, c.1, c.2, rfl⟩)))))))))
    · obtain ⟨e, he⟩ := free_array_err s (s.rd (C w))
        (by by_contra d; push_neg at d; exact c ⟨d.1, d.2⟩)
      rw [dispatch_9_err s w o he] at hok; cases hok
  · by_cases c : s.rd (C w) ≤ 255
    · rw [dispatch_10_ok s w o c] at hok
      obtain ⟨rfl, rfl⟩ := ok_pair_inj hok
      exact Or.inr (Or.inr (Or.inr (Or.inr (Or.inr (Or.inr (Or.inr (Or.inr (Or.inr (Or.inr
        (Or.inl ⟨o, rfl, c, rfl⟩))))))))))
    · rw [dispatch_10_err s w o (by omega)] at hok; cases hok
  · cases hi : s.input with
    | nil =>
      rw [dispatch_11_eof s w o hi] at hok
      obtain ⟨rfl, rfl⟩ := ok_pair_inj hok
      exact Or.inr (Or.inr (Or.inr (Or.inr (Or.inr (Or.inr (Or.inr (Or.inr (Or.inr (Or.inr
        (Or.inr (Or.inl ⟨o, rfl, Or.inl ⟨rfl, rfl⟩⟩)))))))))))
    | cons ch rest =>
      rw [dispatch_11_byte s w o hi] at hok
      obtain ⟨rfl, rfl⟩ := ok_pair_inj hok
      exact Or.inr (Or.inr (Or.inr (Or.inr (Or.inr (Or.inr (Or.inr (Or.inr (Or.inr (Or.inr
        (Or.inr (Or.inl ⟨o, rfl, Or.inr ⟨ch, rest, rfl, rfl⟩⟩)))))))))))
  · by_cases hb : s.rd (B w) = 0
    · rw [dispatch_12_zero s w o hb] at hok
      obtain ⟨rfl, rfl⟩ := ok_pair_inj hok
      exact Or.inr (Or.inr (Or.inr (Or.inr (Or.inr (Or.inr (Or.inr (Or.inr (Or.inr (Or.inr
        (Or.inr (Or.inr (Or.inl ⟨o, rfl, Or.inl ⟨hb, rfl⟩⟩))))))))))))
    · by_cases ha : s.isActive (s.rd (B w))
      · rw [dispatch_12_ok s w o hb ha] at hok
        obtain ⟨rfl, rfl⟩ := ok_pair_inj hok
        exact Or.inr (Or.inr (Or.inr (Or.inr (Or.inr (Or.inr (Or.inr (Or.inr (Or.inr (Or.inr
          (Or.inr (Or.inr (Or.inl ⟨o, rfl, Or.inr ⟨hb, ha, rfl⟩⟩))))))))))))
      · obtain ⟨e, he⟩ := dispatch_12_err s w o hb ha
        rw [he] at hok; cases hok
  · rw [dispatch_13 s w o] at hok
    obtain ⟨rfl, rfl⟩ := ok_pair_inj hok
    exact Or.inr (Or.inr (Or.inr (Or.inr (Or.inr (Or.inr (Or.inr (Or.inr (Or.inr (Or.inr
      (Or.inr (Or.inr (Or.inr ⟨o, rfl, rfl⟩))))))))))))
  · rw [dispatch_bad s w o] at hok; cases hok

/-- Unfolding of a successful cycle: the fetch was in range and the dispatch succeeded. -/
theorem cycle_ok_iff {s t : UM} :
    cycle s = Except.ok t ↔
      s.pc < (s.arrays.getD 0 []).length ∧
        ∃ t1 adv, dispatch s ((s.arrays.getD 0 []).getD s.pc 0) = Except.ok (t1, adv) ∧
          t = if adv then { t1 with pc := (t1.pc + 1) % 4294967296 } else t1 := by
  unfold cycle
  constructor
  · intro hc
    split at hc
    · cases hc
    · rename_i hpc
      refine ⟨by omega, ?_⟩
      split at hc
      · cases hc
      · rename_i t1 adv hd
        simp only [Except.ok.injEq] at hc
        exact ⟨t1, adv, hd, hc.symm⟩
  · rintro ⟨hpc, t1, adv, hd, rfl⟩
    rw [if_neg (by omega), hd]

theorem cycle_err_iff {s : UM} :
    (∃ e, cycle s = Except.error e) ↔
      ((s.arrays.getD 0 []).length ≤ s.pc ∨
        ∃ e, dispatch s ((s.arrays.getD 0 []).getD s.pc 0) = Except.error e) := by
  unfold cycle
  constructor
  · rintro ⟨e, hc⟩
    split at hc
    · rename_i hpc; exact Or.inl hpc
    · split at hc
      · rename_i e1 hd; exact Or.inr ⟨e1, hd⟩
      · cases hc
  · rintro (hpc | ⟨e, hd⟩)
    · rw [if_pos hpc]; exact ⟨_, rfl⟩
    · by_cases hpc : s.pc ≥ (s.arrays.getD 0 []).length
      · rw [if_pos hpc]; exact ⟨_, rfl⟩
      · rw [if_neg hpc, hd]; exact ⟨e, rfl⟩

/-! ## Segment 0 and the allocator -/

theorem alloc_state0_reachable : Reachable alloc_state0 :=
  Reachable.load (UM.fresh []) "alloc.um" alloc_bytes alloc_state0 rfl

theorem WF.seg0_live {s : UM} (h : WF s) : s.seg0_live := by
  have h1 := h.nonempty
  have h2 := h.act0
  have h3 := h.len_eq
  constructor
  · intro c; rw [c] at h1; simp at h1
  · rw [List.getD_eq_getElem?_getD] at h2
    have : 0 < s.active.length := by omega
    rw [List.getElem?_eq_getElem this] at h2 ⊢
    simpa using h2

/-- C1: in every state reachable from a loaded program by non-failing cycles, segment 0
exists and is active (`arrays` non-empty and `active[0] = 1`), and this still holds in the
state after the next instruction. -/
theorem segment_zero_always_active (s : UM) (h : Reachable s) :
    s.seg0_live ∧ ∀ t, cycle s = Except.ok t → t.seg0_live :=
  ⟨h.wf.seg0_live, fun _ hc => (cycle_WF h.wf hc).seg0_live⟩

theorem segment_zero_always_active_witness :
    alloc_state0.seg0_live ∧ ∀ t, cycle alloc_state0 = Except.ok t → t.seg0_live :=
  segment_zero_always_active alloc_state0 alloc_state0_reachable

/-- C2: in a reachable state, an id returned by `alloc_array` is not 0 and was not an
active segment before the call: its flag was 0 or it lay beyond the end of the pool. -/
theorem alloc_array_returns_fresh_nonzero (s : UM) (h : Reachable s) (n id : Nat) (t : UM)
    (ha : alloc_array s n = Except.ok (id, t)) :
    id ≠ 0 ∧ ¬ s.isActive id ∧
      ((id < s.arrays.length ∧ s.active.getD id 0 = 0) ∨ s.arrays.length ≤ id) := by
  rcases alloc_array_cases s h.wf n with ⟨l, i, _, h0, hlt, hact, _, he⟩ | ⟨_, hlt, he⟩ |
    ⟨_, _, he⟩
  · rw [he] at ha
    simp only [Except.ok.injEq, Prod.mk.injEq] at ha
    obtain ⟨rfl, -⟩ := ha
    exact ⟨h0, fun c => c.2 hact, Or.inl ⟨hlt, hact⟩⟩
  · rw [he] at ha
    simp only [Except.ok.injEq, Prod.mk.injEq] at ha
    obtain ⟨rfl, -⟩ := ha
    have := h.wf.nonempty
    exact ⟨by omega, fun c => absurd c.1 (by omega), Or.inr (le_refl _)⟩
  · rw [he] at ha; cases ha

theorem alloc_array_returns_fresh_nonzero_witness :
    (1 : Nat) ≠ 0 ∧ ¬ alloc_state0.isActive 1 ∧
      ((1 < alloc_state0.arrays.length ∧ alloc_state0.active.getD 1 0 = 0) ∨
        alloc_state0.arrays.length ≤ 1) :=
  alloc_array_returns_fresh_nonzero alloc_state0 alloc_state0_reachable 4 1
    (alloc_state0.minted 4) rfl

/-! ## Allocation yields a zero-filled segment -/

theorem demo0_reachable : Reachable demo0 :=
  Reachable.load (UM.fresh []) "demo.um" demo_bytes demo0 rfl

theorem demo1_reachable : Reachable demo1 :=
  Reachable.step demo0 demo1 demo0_reachable rfl rfl

theorem demo2_reachable : Reachable demo2 :=
  Reachable.step demo1 demo2 demo1_reachable rfl rfl

theorem demo3_reachable : Reachable demo3 :=
  Reachable.step demo2 demo3 demo2_reachable rfl rfl

theorem demo4_reachable : Reachable demo4 :=
  Reachable.step demo3 demo4 demo3_reachable rfl rfl

theorem alloc_array_result {s : UM} (h : WF s) {n id : Nat} {t : UM}
    (ha : alloc_array s n = Except.ok (id, t)) :
    id < t.arrays.length ∧ t.active.getD id 0 = 1 ∧ t.arrays.getD id [] = List.replicate n 0 ∧
      ∀ j, j ≠ id → (t.isActive j ↔ s.isActive j) := by
  rcases alloc_array_cases s h n with ⟨l, i, hs, _, hlt, _, hnot, he⟩ | ⟨hnil, hlt, he⟩ |
    ⟨_, _, he⟩
  · rw [he] at ha
    simp only [Except.ok.injEq, Prod.mk.injEq] at ha
    obtain ⟨rfl, rfl⟩ := ha
    have hlt2 : i < s.active.length := by rw [h.len_eq]; exact hlt
    refine ⟨?_, ?_, ?_, ?_⟩
    · show i < (s.arrays.set i _).length
      rw [List.length_set]; exact hlt
    · show (s.active.set i 1).getD i 0 = 1
      rw [getD_set_eq, if_pos ⟨rfl, hlt2⟩]
    · show (s.arrays.set i _).getD i [] = _
      rw [getD_set_eq, if_pos ⟨rfl, hlt⟩]
    · intro j hj
      show (j < (s.arrays.set i _).length ∧ (s.active.set i 1).getD j 0 ≠ 0) ↔ _
      rw [List.length_set, getD_set_eq, if_neg (fun c => hj c.1.symm)]
      rfl
  · rw [he] at ha
    simp only [Except.ok.injEq, Prod.mk.injEq] at ha
    obtain ⟨rfl, rfl⟩ := ha
    refine ⟨?_, ?_, ?_, ?_⟩
    · show s.arrays.length < (s.arrays ++ [_]).length
      simp
    · show (s.active ++ [1]).getD s.arrays.length 0 = 1
      rw [getD_push, h.len_eq, if_neg (by omega), if_pos rfl]
    · show (s.arrays ++ [_]).getD s.arrays.length [] = _
      rw [getD_push, if_neg (by omega), if_pos rfl]
    · intro j hj
      unfold UM.isActive
      show (j < (s.arrays ++ [List.replicate n 0]).length ∧ (s.active ++ [1]).getD j 0 ≠ 0) ↔
        (j < s.arrays.length ∧ s.active.getD j 0 ≠ 0)
      rw [getD_push, h.len_eq]
      simp only [List.length_append, List.length_singleton]
      by_cases c : j < s.arrays.length
      · rw [if_pos c]
        constructor
        · intro d; exact ⟨c, d.2⟩
        · intro d; exact ⟨by omega, d.2⟩
      · rw [if_neg c, if_neg hj]
        constructor
        · intro d; exact absurd rfl d.2
        · intro d; exact absurd d.1 c
  · rw [he] at ha; cases ha

/-- C3: in a reachable state, after `alloc_array n` returns `id`, segment `id` is active,
is exactly `n` zero words (so its length is `n` and every offset below `n` reads 0),
whether `id` was minted or recycled. -/
theorem alloc_array_zero_filled (s : UM) (h : Reachable s) (n id : Nat) (t : UM)
    (ha : alloc_array s n = Except.ok (id, t)) :
    t.isActive id ∧ t.arrays[id]? = some (List.replicate n 0) ∧ t.seglen id = n ∧
      ∀ off, off < n → (t.arrays.getD id [])[off]? = some 0 := by
  obtain ⟨hlt, hfl, hseg, -⟩ := alloc_array_result h.wf ha
  refine ⟨⟨hlt, by rw [hfl]; decide⟩, ?_, ?_, ?_⟩
  · rw [List.getD_eq_getElem?_getD, List.getElem?_eq_getElem hlt] at hseg
    rw [List.getElem?_eq_getElem hlt]
    simpa using hseg
  · unfold UM.seglen; rw [hseg]; simp
  · intro off hoff
    rw [hseg]
    simp [List.getElem?_replicate, hoff]

theorem alloc_array_zero_filled_witness :
    (demo4.recycled [] 1 2).isActive 1 ∧
      (demo4.recycled [] 1 2).arrays[1]? = some (List.replicate 2 0) ∧
      (demo4.recycled [] 1 2).seglen 1 = 2 ∧
      ∀ off, off < 2 → ((demo4.recycled [] 1 2).arrays.getD 1 [])[off]? = some 0 :=
  alloc_array_zero_filled demo4 demo4_reachable 2 1 (demo4.recycled [] 1 2) rfl

/-! ## Deallocation -/

theorem dispatch_keeps_inactive {s : UM} (h : WF s) {w : Nat} {t : UM} {adv : Bool}
    (hok : dispatch s w = Except.ok (t, adv)) (id : Nat) (hn : ¬ s.isActive id)
    (hna : OP w = 8 → ∀ t1, alloc_array s (s.rd (C w)) ≠ Except.ok (id, t1)) :
    ¬ t.isActive id := by
  rcases dispatch_ok_cases hok with ⟨-, -, rfl⟩ | ⟨-, -, -, -, rfl⟩ | ⟨-, -, -, -, rfl⟩ |
    ⟨-, -, rfl⟩ | ⟨-, -, rfl⟩ | ⟨-, -, -, rfl⟩ | ⟨-, -, rfl⟩ | ⟨-, -, rfl⟩ |
    ⟨o, -, i, t1, ha, rfl⟩ | ⟨-, -, -, -, rfl⟩ | ⟨-, -, -, rfl⟩ |
    ⟨-, -, ⟨-, rfl⟩ | ⟨ch, rest, -, rfl⟩⟩ | ⟨-, -, ⟨-, rfl⟩ | ⟨-, -, rfl⟩⟩ | ⟨-, -, rfl⟩
  · split
    · exact hn
    · exact hn
  · exact hn
  · intro c
    apply hn
    obtain ⟨c1, c2⟩ := c
    change id < (s.arrays.set _ _).length at c1
    rw [List.length_set] at c1
    exact ⟨c1, c2⟩
  · exact hn
  · exact hn
  · exact hn
  · exact hn
  · exact hn
  · intro c
    have c' : t1.isActive id := c
    by_cases e : id = i
    · subst e; exact hna o t1 ha
    · exact hn (((alloc_array_result h ha).2.2.2 id e).mp c')
  · intro c
    apply hn
    obtain ⟨c1, c2⟩ := c
    change id < (s.arrays.set _ _).length at c1
    change (s.active.set _ 0).getD id 0 ≠ 0 at c2
    rw [List.length_set] at c1
    rw [getD_set_eq] at c2
    split at c2
    · exact absurd rfl c2
    · exact ⟨c1, c2⟩
  · exact hn
  · exact hn
  · exact hn
  · exact hn
  · intro c
    apply hn
    obtain ⟨c1, c2⟩ := c
    change id < (s.arrays.set _ _).length at c1
    rw [List.length_set] at c1
    exact ⟨c1, c2⟩
  · exact hn

theorem cycle_keeps_inactive {s t : UM} (h : WF s) (hc : cycle s = Except.ok t) (id : Nat)
    (hn : ¬ s.isActive id) (hna : cycle_alloc s ≠ some id) : ¬ t.isActive id := by
  obtain ⟨hpc, t1, adv, hd, rfl⟩ := cycle_ok_iff.mp hc
  have h1 : ¬ t1.isActive id := by
    refine dispatch_keeps_inactive h hd id hn ?_
    intro o t2 ha
    apply hna
    unfold cycle_alloc
    rw [if_neg (by omega)]
    have o' : OP s.fetch = 8 := o
    have ha' : alloc_array s (s.rd (C s.fetch)) = Except.ok (id, t2) := ha
    rw [if_pos o', ha']
  split
  · exact h1
  · exact h1

theorem avoid_steps_inactive {id : Nat} {s t : UM} (hst : AvoidSteps id s t) :
    WF s → ¬ s.isActive id → WF t ∧ ¬ t.isActive id := by
  induction hst with
  | refl s => exact fun h hn => ⟨h, hn⟩
  | step s t u hc hna _ ih =>
    intro h hn
    exact ih (cycle_WF h hc) (cycle_keeps_inactive h hc id hn hna)

theorem inactive_ops_fail (t : UM) (id : Nat) (h0 : id ≠ 0) (hn : ¬ t.isActive id)
    (hop : (OP t.fetch = 1 ∧ t.rd (B t.fetch) = id) ∨ (OP t.fetch = 2 ∧ t.rd (A t.fetch) = id) ∨
      (OP t.fetch = 9 ∧ t.rd (C t.fetch) = id) ∨ (OP t.fetch = 12 ∧ t.rd (B t.fetch) = id)) :
    ∃ e, cycle t = Except.error e := by
  refine cycle_err_iff.mpr (Or.inr ?_)
  change ∃ e, dispatch t t.fetch = Except.error e
  rcases hop with ⟨o, r⟩ | ⟨o, r⟩ | ⟨o, r⟩ | ⟨o, r⟩
  · exact dispatch_1_err t _ o (Or.inl (by rw [r]; exact hn))
  · exact dispatch_2_err t _ o (Or.inl (by rw [r]; exact hn))
  · obtain ⟨e, he⟩ := free_array_err t (t.rd (C t.fetch)) (Or.inr (by rw [r]; exact hn))
    exact ⟨e, dispatch_9_err t _ o he⟩
  · exact dispatch_12_err t _ o (by rw [r]; exact h0) (by rw [r]; exact hn)

/-- C4: in a reachable state, `free_array id` on an active, non-zero id succeeds and leaves
`id` inactive, its storage empty and `id` on top of the recycling stack. From there (at any
program counter) `id` stays inactive along every sequence of cycles in which no
`alloc_array` call returns `id`, and in each such state a cycle that is Array Index, Array
Amendment, Deallocation or Load Program on `id` fails. -/
theorem free_array_deactivates (s : UM) (h : Reachable s) (id : Nat) (h0 : id ≠ 0)
    (ha : s.isActive id) :
    ∃ s1, free_array s id = Except.ok s1 ∧ ¬ s1.isActive id ∧ s1.arrays[id]? = some [] ∧
      s1.free_ids.getLast? = some id ∧
      ∀ p t, p < 4294967296 → AvoidSteps id { s1 with pc := p } t →
        ¬ t.isActive id ∧
        ((OP t.fetch = 1 ∧ t.rd (B t.fetch) = id) ∨ (OP t.fetch = 2 ∧ t.rd (A t.fetch) = id) ∨
          (OP t.fetch = 9 ∧ t.rd (C t.fetch) = id) ∨
          (OP t.fetch = 12 ∧ t.rd (B t.fetch) = id) → ∃ e, cycle t = Except.error e) := by
  have hw := h.wf
  have hlt := ha.1
  have hlt2 : id < s.active.length := by rw [hw.len_eq]; exact hlt
  have hin : ¬ (s.freed id).isActive id := by
    intro c
    have c2 := c.2
    change (s.active.set id 0).getD id 0 ≠ 0 at c2
    rw [getD_set_eq, if_pos ⟨rfl, hlt2⟩] at c2
    exact c2 rfl
  refine ⟨s.freed id, free_array_ok s id h0 ha, hin, ?_, ?_, ?_⟩
  · show (s.arrays.set id [])[id]? = some []
    rw [List.getElem?_set_self hlt]
  · show (s.free_ids ++ [id]).getLast? = some id
    simp
  · intro p t hp hst
    have hw1 : WF ({ s.freed id with pc := p }) :=
      (hw.freed h0 ha).congr rfl rfl rfl rfl hp
    obtain ⟨-, hnt⟩ := avoid_steps_inactive hst hw1 hin
    exact ⟨hnt, inactive_ops_fail t id h0 hnt⟩

theorem free_array_deactivates_witness :
    ∃ s1, free_array demo3 1 = Except.ok s1 ∧ ¬ s1.isActive 1 ∧ s1.arrays[1]? = some [] ∧
      s1.free_ids.getLast? = some 1 ∧
      ∀ p t, p < 4294967296 → AvoidSteps 1 { s1 with pc := p } t →
        ¬ t.isActive 1 ∧
        ((OP t.fetch = 1 ∧ t.rd (B t.fetch) = 1) ∨ (OP t.fetch = 2 ∧ t.rd (A t.fetch) = 1) ∨
          (OP t.fetch = 9 ∧ t.rd (C t.fetch) = 1) ∨
          (OP t.fetch = 12 ∧ t.rd (B t.fetch) = 1) → ∃ e, cycle t = Except.error e) :=
  free_array_deactivates demo3 demo3_reachable 1 (by decide) (by decide)

/-! ## A pool of 2^32 slots -/

theorem pump_load : Reachable (pump_state 0 0) := by
  refine Reachable.load (UM.fresh []) "pump.um" pump_bytes _ ?_
  have : pump_state 0 0 =
      { R := fun _ => 0, arrays := [pump_prog], free_ids := [], pc := 0, halted := false,
        active := [1], input := [], output := [] } := by
    unfold pump_state
    congr 1
    funext r
    simp
  rw [this]
  rfl

theorem UM.eq_of_fields {s t : UM} (hR : s.R = t.R) (ha : s.arrays = t.arrays)
    (hf : s.free_ids = t.free_ids) (hp : s.pc = t.pc) (hh : s.halted = t.halted)
    (hact : s.active = t.active) (hi : s.input = t.input) (ho : s.output = t.output) :
    s = t := by
  cases s; cases t; simp_all

theorem pump_alloc (k : Nat) (hk : k + 1 < 4294967296) :
    cycle (pump_state k 0) = Except.ok (pump_state (k + 1) 1) := by
  refine cycle_ok_iff.mpr ⟨by simp [pump_state, pump_prog], ?_⟩
  have hf : ((pump_state k 0).arrays.getD 0 []).getD (pump_state k 0).pc 0 = 0x80000008 := by
    simp [pump_state, pump_prog]
  rw [hf]
  have hC : C 0x80000008 = 0 := by decide
  have hB : B 0x80000008 = 1 := by decide
  have hO : OP 0x80000008 = 8 := by decide
  have ha : alloc_array (pump_state k 0) ((pump_state k 0).rd (C 0x80000008)) =
      Except.ok (k + 1, (pump_state k 0).minted 0) := by
    have hm : (k + 1) % 4294967296 = k + 1 := Nat.mod_eq_of_lt hk
    rw [hC]
    have hr : (pump_state k 0).rd 0 = 0 := rfl
    rw [hr]
    simp [alloc_array, pump_state, UM.minted, hm]
  refine ⟨_, true, dispatch_8_ok _ _ hO ha, ?_⟩
  rw [hB]
  simp only [if_true]
  refine UM.eq_of_fields ?_ ?_ rfl rfl rfl ?_ rfl rfl
  · show (fun r : Fin 8 => if r = 1 then k + 1 else 0) =
      Function.update (fun r : Fin 8 => if r = 1 then k else 0) (Fin.ofNat 1) (k + 1)
    funext r
    by_cases hr : r = 1
    · subst hr; rfl
    · have hr2 : r ≠ Fin.ofNat 1 := hr
      rw [Function.update_noteq hr2]
      simp [hr]
  · show pump_prog :: List.replicate (k + 1) [] = pump_prog :: List.replicate k [] ++ [[]]
    rw [List.replicate_succ']
    rfl
  · show List.replicate (k + 1 + 1) 1 = List.replicate (k + 1) 1 ++ [1]
    rw [List.replicate_succ' (k + 1)]

theorem pump_jump (k : Nat) :
    cycle (pump_state k 1) = Except.ok (pump_state k 0) := by
  refine cycle_ok_iff.mpr ⟨by simp [pump_state, pump_prog], ?_⟩
  have hf : ((pump_state k 1).arrays.getD 0 []).getD (pump_state k 1).pc 0 = 0xC0000000 := by
    simp [pump_state, pump_prog]
  rw [hf]
  have hO : OP 0xC0000000 = 12 := by decide
  have hb : (pump_state k 1).rd (B 0xC0000000) = 0 := rfl
  refine ⟨_, false, dispatch_12_zero _ _ hO hb, ?_⟩
  rfl

theorem pump_reachable (k : Nat) (hk : k < 4294967296) : Reachable (pump_state k 0) := by
  induction k with
  | zero => exact pump_load
  | succ n ih =>
    have h1 : Reachable (pump_state n 0) := ih (by omega)
    have h2 : Reachable (pump_state (n + 1) 1) :=
      Reachable.step _ _ h1 rfl (pump_alloc n hk)
    exact Reachable.step _ _ h2 rfl (pump_jump (n + 1))

theorem pump_fails (k : Nat) (hk : k + 1 = 4294967296) :
    cycle (pump_state k 0) = Except.error "internal: allocated id 0 (forbidden)" := by
  unfold cycle
  have hpc : ¬ ((pump_state k 0).pc ≥ ((pump_state k 0).arrays.getD 0 []).length) := by
    simp [pump_state, pump_prog]
  rw [if_neg hpc]
  have hf : ((pump_state k 0).arrays.getD 0 []).getD (pump_state k 0).pc 0 = 0x80000008 := by
    simp [pump_state, pump_prog]
  rw [hf]
  have hO : OP 0x80000008 = 8 := by decide
  have ha : alloc_array (pump_state k 0) ((pump_state k 0).rd (C 0x80000008)) =
      Except.error "internal: allocated id 0 (forbidden)" := by
    have hm : (k + 1) % 4294967296 = 0 := by omega
    simp [alloc_array, pump_state, hm, fail]
  rw [dispatch_8_err _ _ hO ha]

theorem pump_not_listed (k : Nat) : ¬ listed_failure (pump_state k 0) := by
  have hf : (pump_state k 0).fetch = 0x80000008 := by
    simp [UM.fetch, pump_state, pump_prog]
  have hl : (pump_state k 0).seglen 0 = 2 := by
    simp [UM.seglen, pump_state, pump_prog]
  have hO : OP 0x80000008 = 8 := by decide
  unfold listed_failure
  rw [hf, hl, hO]
  have hpc : (pump_state k 0).pc = 0 := rfl
  rw [hpc]
  simp

/-- C5, refuted as stated: the reachable state `pump_full` (pool of `2^32` slots, empty
recycling stack, next instruction an Allocation) fails its next cycle although none of
the listed conditions holds. -/
theorem listed_failures_incomplete :
    Reachable pump_full ∧ cycle pump_full = Except.error "internal: allocated id 0 (forbidden)" ∧
      ¬ listed_failure pump_full :=
  ⟨pump_reachable 4294967295 (by norm_num), pump_fails 4294967295 (by norm_num),
    pump_not_listed 4294967295⟩

/-! ## Failure of a cycle -/

theorem OP_lt_16 (w : Nat) (h : w < 4294967296) : OP w < 16 := by
  unfold OP
  rw [Nat.shiftRight_eq_div_pow]
  have : (2 : Nat) ^ 28 = 268435456 := by norm_num
  rw [this]
  omega

theorem dispatch_err_cases {s : UM} (h : WF s) {w : Nat} (hw : w < 4294967296) {e : String}
    (he : dispatch s w = Except.error e) :
    OP w = 14 ∨ OP w = 15 ∨
    (OP w = 1 ∧ (¬ s.isActive (s.rd (B w)) ∨ s.rd (C w) ≥ s.seglen (s.rd (B w)))) ∨
    (OP w = 2 ∧ (¬ s.isActive (s.rd (A w)) ∨ s.rd (B w) ≥ s.seglen (s.rd (A w)))) ∨
    (OP w = 5 ∧ s.rd (C w) = 0) ∨
    (OP w = 9 ∧ (s.rd (C w) = 0 ∨ ¬ s.isActive (s.rd (C w)))) ∨
    (OP w = 10 ∧ s.rd (C w) > 255) ∨
    (OP w = 12 ∧ s.rd (B w) ≠ 0 ∧ ¬ s.isActive (s.rd (B w))) ∨
    (OP w = 8 ∧ s.free_ids = [] ∧ s.arrays.length = 4294967296) := by
  rcases op_cases (OP w) with o | o | o | o | o | o | o | o | o | o | o | o | o | o | o
  · rw [dispatch_0 s w o] at he; cases he
  · by_cases c : s.isActive (s.rd (B w)) ∧ s.rd (C w) < s.seglen (s.rd (B w))
    · rw [dispatch_1_ok s w o c.1 c.2] at he; cases he
    · right; right; left
      refine ⟨o, ?_⟩
      by_contra d; push_neg at d; exact c ⟨d.1, d.2⟩
  · by_cases c : s.isActive (s.rd (A w)) ∧ s.rd (B w) < s.seglen (s.rd (A w))
    · rw [dispatch_2_ok s w o c.1 c.2] at he; cases he
    · right; right; right; left
      refine ⟨o, ?_⟩
      by_contra d; push_neg at d; exact c ⟨d.1, d.2⟩
  · rw [dispatch_3 s w o] at he; cases he
  · rw [dispatch_4 s w o] at he; cases he
  · by_cases c : s.rd (C w) = 0
    · right; right; right; right; left; exact ⟨o, c⟩
    · rw [dispatch_5_ok s w o c] at he; cases he
  · rw [dispatch_6 s w o] at he; cases he
  · rw [dispatch_7 s w o] at he; cases he
  · rcases alloc_array_cases s h (s.rd (C w)) with ⟨l, i, _, _, _, _, _, ha⟩ | ⟨_, _, ha⟩ |
      ⟨hnil, hlen, _⟩
    · rw [dispatch_8_ok s w o ha] at he; cases he
    · rw [dispatch_8_ok s w o ha] at he; cases he
    · right; right; right; right; right; right; right; right; exact ⟨o, hnil, hlen⟩
  · by_cases c : s.rd (C w) ≠ 0 ∧ s.isActive (s.rd (C w))
    · rw [dispatch_9_ok s w o (free_array_ok s _ c.1 c.2)] at he; cases he
    · right; right; right; right; right; left
      refine ⟨o, ?_⟩
      by_contra d; push_neg at d; exact c ⟨d.1, d.2⟩
  · by_cases c : s.rd (C w) ≤ 255
    · rw [dispatch_10_ok s w o c] at he; cases he
    · right; right; right; right; right; right; left; exact ⟨o, by omega⟩
  · cases hi : s.input with
    | nil => rw [dispatch_11_eof s w o hi] at he; cases he
    | cons ch rest => rw [dispatch_11_byte s w o hi] at he; cases he
  · by_cases hb : s.rd (B w) = 0
    · rw [dispatch_12_zero s w o hb] at he; cases he
    · by_cases ha : s.isActive (s.rd (B w))
      · rw [dispatch_12_ok s w o hb ha] at he; cases he
      · right; right; right; right; right; right; right; left; exact ⟨o, hb, ha⟩
  · rw [dispatch_13 s w o] at he; cases he
  · have := OP_lt_16 w hw
    omega

theorem alloc_array_exhausted (s : UM) (n : Nat) (hnil : s.free_ids = [])
    (hlen : s.arrays.length = 4294967296) :
    alloc_array s n = Except.error "internal: allocated id 0 (forbidden)" := by
  simp [alloc_array, hnil, hlen, fail]

/-- C5, amended: in a reachable state one cycle fails exactly when one of the listed
conditions holds or the cycle is an Allocation that must mint an id while the pool already
has `2^32` slots; in every other case the cycle completes. -/
theorem cycle_fails_iff (s : UM) (h : Reachable s) :
    (∃ e, cycle s = Except.error e) ↔ (listed_failure s ∨ pool_exhausted s) := by
  have hw := h.wf
  constructor
  · intro hf
    by_cases hpc : s.pc ≥ s.seglen 0
    · exact Or.inl (Or.inl hpc)
    · rcases cycle_err_iff.mp hf with c | ⟨e, he⟩
      · exact absurd c hpc
      · have hlt : s.fetch < 4294967296 := hw.words 0 s.pc
        rcases dispatch_err_cases hw hlt he with c | c | c | c | c | c | c | c | c
        · exact Or.inl (Or.inr (Or.inl c))
        · exact Or.inl (Or.inr (Or.inr (Or.inl c)))
        · exact Or.inl (Or.inr (Or.inr (Or.inr (Or.inl c))))
        · exact Or.inl (Or.inr (Or.inr (Or.inr (Or.inr (Or.inl c)))))
        · exact Or.inl (Or.inr (Or.inr (Or.inr (Or.inr (Or.inr (Or.inl c))))))
        · exact Or.inl (Or.inr (Or.inr (Or.inr (Or.inr (Or.inr (Or.inr (Or.inl c)))))))
        · exact Or.inl (Or.inr (Or.inr (Or.inr (Or.inr (Or.inr (Or.inr (Or.inr (Or.inl c))))))))
        · exact Or.inl (Or.inr (Or.inr (Or.inr (Or.inr (Or.inr (Or.inr (Or.inr (Or.inr c))))))))
        · exact Or.inr ⟨by omega, c.1, c.2.1, c.2.2⟩
  · intro hc
    refine cycle_err_iff.mpr ?_
    rcases hc with (c | c | c | ⟨o, c⟩ | ⟨o, c⟩ | ⟨o, c⟩ | ⟨o, c⟩ | ⟨o, c⟩ | ⟨o, c1, c2⟩) |
      ⟨_, o, hnil, hlen⟩
    · exact Or.inl c
    · exact Or.inr ⟨_, dispatch_bad s _ (by show 13 < OP s.fetch; rw [c]; decide)⟩
    · exact Or.inr ⟨_, dispatch_bad s _ (by show 13 < OP s.fetch; rw [c]; decide)⟩
    · exact Or.inr (dispatch_1_err s _ o c)
    · exact Or.inr (dispatch_2_err s _ o c)
    · exact Or.inr ⟨_, dispatch_5_err s _ o c⟩
    · obtain ⟨e, he⟩ := free_array_err s _ c
      exact Or.inr ⟨e, dispatch_9_err s _ o he⟩
    · exact Or.inr ⟨_, dispatch_10_err s _ o c⟩
    · exact Or.inr (dispatch_12_err s _ o c1 c2)
    · exact Or.inr ⟨_, dispatch_8_err s _ o (alloc_array_exhausted s _ hnil hlen)⟩

theorem cycle_fails_iff_witness :
    (∃ e, cycle demo4 = Except.error e) ↔ (listed_failure demo4 ∨ pool_exhausted demo4) :=
  cycle_fails_iff demo4 demo4_reachable

/-! ## Load Program -/

theorem cycle_of_dispatch {s t : UM} {adv : Bool} (hpc : s.pc < s.seglen 0)
    (hd : dispatch s s.fetch = Except.ok (t, adv)) :
    cycle s = Except.ok (if adv then { t with pc := (t.pc + 1) % 4294967296 } else t) :=
  cycle_ok_iff.mpr ⟨hpc, t, adv, hd, rfl⟩

/-- C6: when the fetched instruction is Load Program with `R[B] ≠ 0` naming an active
segment, the cycle succeeds; afterwards segment 0 is equal to what segment `R[B]` was,
`pc = R[C]`, segment `R[B]` is unchanged and still active, registers, flags and recycling
stack are unchanged; and in any later state an Array Amendment writing to segment `R[B]`
leaves segment 0 as it is. -/
theorem load_program_copies (s : UM) (hpc : s.pc < s.seglen 0) (ho : OP s.fetch = 12)
    (hb : s.rd (B s.fetch) ≠ 0) (ha : s.isActive (s.rd (B s.fetch))) :
    ∃ t seg, cycle s = Except.ok t ∧ s.arrays[s.rd (B s.fetch)]? = some seg ∧
      t.arrays[0]? = some seg ∧ t.arrays[s.rd (B s.fetch)]? = some seg ∧
      t.pc = s.rd (C s.fetch) ∧ t.isActive (s.rd (B s.fetch)) ∧ t.R = s.R ∧
      t.active = s.active ∧ t.free_ids = s.free_ids ∧
      ∀ u u1, Steps t u → OP u.fetch = 2 → u.rd (A u.fetch) = s.rd (B s.fetch) →
        cycle u = Except.ok u1 → u1.arrays[0]? = u.arrays[0]? := by
  have hlt := ha.1
  have hne : 0 < s.arrays.length := by omega
  refine ⟨s.loaded (s.rd (B s.fetch)) (s.rd (C s.fetch)), s.arrays.getD (s.rd (B s.fetch)) [],
    ?_, ?_, ?_, ?_, rfl, ?_, rfl, rfl, rfl, ?_⟩
  · have := cycle_of_dispatch hpc (dispatch_12_ok s _ ho hb ha)
    simpa using this
  · rw [List.getD_eq_getElem?_getD, List.getElem?_eq_getElem hlt]; rfl
  · show (s.arrays.set 0 _)[0]? = _
    rw [List.getElem?_set_self hne]
  · show (s.arrays.set 0 _)[s.rd (B s.fetch)]? = _
    rw [List.getElem?_set_ne (fun c => hb c.symm), List.getD_eq_getElem?_getD,
      List.getElem?_eq_getElem hlt]
    rfl
  · refine ⟨?_, ha.2⟩
    show s.rd (B s.fetch) < (s.arrays.set 0 _).length
    rw [List.length_set]; exact hlt
  · intro u u1 _ o2 hA hc
    obtain ⟨_, t1, adv, hd, rfl⟩ := cycle_ok_iff.mp hc
    have hd' : dispatch u u.fetch = Except.ok (t1, adv) := hd
    have hx : u.rd (A u.fetch) ≠ 0 := by rw [hA]; exact hb
    have e1 : t1.arrays[0]? = u.arrays[0]? := by
      rcases dispatch_ok_cases hd' with
        ⟨o, -⟩ | ⟨o, -⟩ | ⟨-, -, -, -, rfl⟩ | ⟨o, -⟩ | ⟨o, -⟩ | ⟨o, -⟩ | ⟨o, -⟩ | ⟨o, -⟩ |
        ⟨o, -⟩ | ⟨o, -⟩ | ⟨o, -⟩ | ⟨o, -⟩ | ⟨o, -⟩ | ⟨o, -⟩
      all_goals first
        | (show (u.arrays.set _ _)[0]? = _
           rw [List.getElem?_set_ne hx])
        | (rw [o2] at o; exact absurd o (by decide))
    split
    · exact e1
    · exact e1

theorem load_program_copies_witness :
    ∃ t seg, cycle load_state = Except.ok t ∧
      load_state.arrays[load_state.rd (B load_state.fetch)]? = some seg ∧
      t.arrays[0]? = some seg ∧ t.arrays[load_state.rd (B load_state.fetch)]? = some seg ∧
      t.pc = load_state.rd (C load_state.fetch) ∧
      t.isActive (load_state.rd (B load_state.fetch)) ∧ t.R = load_state.R ∧
      t.active = load_state.active ∧ t.free_ids = load_state.free_ids ∧
      ∀ u u1, Steps t u → OP u.fetch = 2 →
        u.rd (A u.fetch) = load_state.rd (B load_state.fetch) →
        cycle u = Except.ok u1 → u1.arrays[0]? = u.arrays[0]? :=
  load_program_copies load_state (by decide) (by decide) (by decide) (by decide)

/-- C7: when the fetched instruction is Load Program with `R[B] = 0`, the cycle succeeds
and its whole effect is `pc ← R[C]`: every other component of the state is unchanged and
`pc` is not incremented. -/
theorem load_program_zero_is_jump (s : UM) (hpc : s.pc < s.seglen 0) (ho : OP s.fetch = 12)
    (hb : s.rd (B s.fetch) = 0) :
    cycle s = Except.ok { s with pc := s.rd (C s.fetch) } := by
  have := cycle_of_dispatch hpc (dispatch_12_zero s _ ho hb)
  simpa using this

theorem load_program_zero_is_jump_witness :
    cycle jump_state = Except.ok { jump_state with pc := jump_state.rd (C jump_state.fetch) } :=
  load_program_zero_is_jump jump_state (by decide) (by decide) (by decide)

/-! ## Decoder and arithmetic -/

theorem A_eq (w : Nat) : A w = w / 64 % 8 := by
  unfold A
  rw [Nat.shiftRight_eq_div_pow]
  exact Nat.and_pow_two_sub_one_eq_mod _ 3

theorem B_eq (w : Nat) : B w = w / 8 % 8 := by
  unfold B
  rw [Nat.shiftRight_eq_div_pow]
  exact Nat.and_pow_two_sub_one_eq_mod _ 3

theorem C_eq (w : Nat) : C w = w % 8 := by
  unfold C
  rw [Nat.shiftRight_eq_div_pow]
  simpa using Nat.and_pow_two_sub_one_eq_mod w 3

theorem dispatch_congr (s : UM) (w v : Nat) (h13 : OP w ≠ 13) (hO : OP w = OP v)
    (hA : A w = A v) (hB : B w = B v) (hC : C w = C v) : dispatch s w = dispatch s v := by
  have h13' : OP v ≠ 13 := hO ▸ h13
  unfold dispatch
  simp only [if_neg h13, if_neg h13', ← hO, ← hA, ← hB, ← hC]

/-- C9: two instruction words with the same top four bits (an opcode in 0..12) and the
same low nine bits decode to the same opcode and the same register indices A, B, C, each
below 8, and dispatching either on the same machine state gives the same outcome. -/
theorem reserved_bits_ignored (w v : Nat) (htop : w >>> 28 = v >>> 28)
    (hlow : w % 512 = v % 512) (hop : w >>> 28 ≤ 12) :
    OP w = OP v ∧ A w = A v ∧ B w = B v ∧ C w = C v ∧ A w < 8 ∧ B w < 8 ∧ C w < 8 ∧
      ∀ s, dispatch s w = dispatch s v := by
  have hO : OP w = OP v := htop
  have hA : A w = A v := by rw [A_eq, A_eq]; omega
  have hB : B w = B v := by rw [B_eq, B_eq]; omega
  have hC : C w = C v := by rw [C_eq, C_eq]; omega
  have h13 : OP w ≠ 13 := by
    have : OP w ≤ 12 := hop
    omega
  refine ⟨hO, hA, hB, hC, ?_, ?_, ?_, fun s => dispatch_congr s w v h13 hO hA hB hC⟩
  · rw [A_eq]; omega
  · rw [B_eq]; omega
  · rw [C_eq]; omega

theorem reserved_bits_ignored_witness :
    OP 0x3000008A = OP 0x3FFFFE8A ∧ A 0x3000008A = A 0x3FFFFE8A ∧
      B 0x3000008A = B 0x3FFFFE8A ∧ C 0x3000008A = C 0x3FFFFE8A ∧ A 0x3000008A < 8 ∧
      B 0x3000008A < 8 ∧ C 0x3000008A < 8 ∧
      ∀ s, dispatch s 0x3000008A = dispatch s 0x3FFFFE8A :=
  reserved_bits_ignored 0x3000008A 0x3FFFFE8A (by decide) (by decide) (by decide)

theorem not32_spec (x : Nat) :
    not32 x < 4294967296 ∧ ∀ i, i < 32 → (not32 x).testBit i = !x.testBit i := by
  unfold not32
  refine ⟨Nat.mod_lt _ (by decide), ?_⟩
  intro i hi
  have e1 : (4294967296 : Nat) = 2 ^ 32 := by norm_num
  have e2 : (0xFFFFFFFF : Nat) = 2 ^ 32 - 1 := by norm_num
  rw [e1, e2, Nat.testBit_mod_two_pow, Nat.testBit_xor, Nat.testBit_two_pow_sub_one]
  simp [hi]

theorem rd_wr_same (s : UM) (i v : Nat) : (s.wr i v).rd i = v := by
  unfold UM.rd UM.wr
  simp

/-- C10: a cycle whose fetched instruction has opcode 3, 4 or 6 never fails; it writes
register A only, advances `pc`, and leaves every other register, every segment and the
rest of the state unchanged. The value written is `(R[B] + R[C]) mod 2^32` for opcode 3,
`(R[B] * R[C]) mod 2^32` for opcode 4, and for opcode 6 the 32-bit word whose bit `i` is
the negation of bit `i` of `R[B] AND R[C]`, all read before the cycle. -/
theorem arithmetic_ops (s : UM) (hpc : s.pc < s.seglen 0)
    (ho : OP s.fetch = 3 ∨ OP s.fetch = 4 ∨ OP s.fetch = 6) :
    ∃ t v, cycle s = Except.ok t ∧
      t = { s.wr (A s.fetch) v with pc := (s.pc + 1) % 4294967296 } ∧
      t.rd (A s.fetch) = v ∧ (∀ r, r ≠ Fin.ofNat (A s.fetch) → t.R r = s.R r) ∧
      t.arrays = s.arrays ∧
      (OP s.fetch = 3 → v = (s.rd (B s.fetch) + s.rd (C s.fetch)) % 4294967296) ∧
      (OP s.fetch = 4 → v = (s.rd (B s.fetch) * s.rd (C s.fetch)) % 4294967296) ∧
      (OP s.fetch = 6 → v < 4294967296 ∧ ∀ i, i < 32 →
        v.testBit i = !((s.rd (B s.fetch)).testBit i && (s.rd (C s.fetch)).testBit i)) := by
  have frame : ∀ v, (∀ r, r ≠ Fin.ofNat (A s.fetch) →
      ({ s.wr (A s.fetch) v with pc := (s.pc + 1) % 4294967296 } : UM).R r = s.R r) := by
    intro v r hr
    show Function.update s.R (Fin.ofNat (A s.fetch)) v r = s.R r
    rw [Function.update_noteq hr]
  rcases ho with o | o | o
  · refine ⟨_, (s.rd (B s.fetch) + s.rd (C s.fetch)) % 4294967296,
      cycle_of_dispatch hpc (dispatch_3 s _ o), rfl, rd_wr_same s _ _, frame _, rfl,
      fun _ => rfl, ?_, ?_⟩
    · intro c; rw [o] at c; exact absurd c (by decide)
    · intro c; rw [o] at c; exact absurd c (by decide)
  · refine ⟨_, (s.rd (B s.fetch) * s.rd (C s.fetch)) % 4294967296,
      cycle_of_dispatch hpc (dispatch_4 s _ o), rfl, rd_wr_same s _ _, frame _, rfl,
      ?_, fun _ => rfl, ?_⟩
    · intro c; rw [o] at c; exact absurd c (by decide)
    · intro c; rw [o] at c; exact absurd c (by decide)
  · refine ⟨_, not32 (s.rd (B s.fetch) &&& s.rd (C s.fetch)),
      cycle_of_dispatch hpc (dispatch_6 s _ o), rfl, rd_wr_same s _ _, frame _, rfl,
      ?_, ?_, ?_⟩
    · intro c; rw [o] at c; exact absurd c (by decide)
    · intro c; rw [o] at c; exact absurd c (by decide)
    · intro _
      obtain ⟨h1, h2⟩ := not32_spec (s.rd (B s.fetch) &&& s.rd (C s.fetch))
      refine ⟨h1, fun i hi => ?_⟩
      rw [h2 i hi, Nat.testBit_and]

theorem arithmetic_ops_witness :
    ∃ t v, cycle (arith_state 0x300000CA) = Except.ok t ∧
      t = { (arith_state 0x300000CA).wr (A (arith_state 0x300000CA).fetch) v with
        pc := ((arith_state 0x300000CA).pc + 1) % 4294967296 } ∧
      t.rd (A (arith_state 0x300000CA).fetch) = v ∧
      (∀ r, r ≠ Fin.ofNat (A (arith_state 0x300000CA).fetch) →
        t.R r = (arith_state 0x300000CA).R r) ∧
      t.arrays = (arith_state 0x300000CA).arrays ∧
      (OP (arith_state 0x300000CA).fetch = 3 →
        v = ((arith_state 0x300000CA).rd (B (arith_state 0x300000CA).fetch) +
          (arith_state 0x300000CA).rd (C (arith_state 0x300000CA).fetch)) % 4294967296) ∧
      (OP (arith_state 0x300000CA).fetch = 4 →
        v = ((arith_state 0x300000CA).rd (B (arith_state 0x300000CA).fetch) *
          (arith_state 0x300000CA).rd (C (arith_state 0x300000CA).fetch)) % 4294967296) ∧
      (OP (arith_state 0x300000CA).fetch = 6 → v < 4294967296 ∧ ∀ i, i < 32 →
        v.testBit i = !(((arith_state 0x300000CA).rd (B (arith_state 0x300000CA).fetch)).testBit i
          && ((arith_state 0x300000CA).rd (C (arith_state 0x300000CA).fetch)).testBit i)) :=
  arithmetic_ops (arith_state 0x300000CA) (by decide) (Or.inl (by decide))

/-! ## The two source variants -/

theorem OPC_eq (w : Nat) : OPC w = OP w := rfl
theorem Astd_eq (w : Nat) : Astd w = A w := rfl
theorem Bstd_eq (w : Nat) : Bstd w = B w := rfl
theorem Cstd_eq (w : Nat) : Cstd w = C w := rfl

theorem test_check_active (s : UM) (id : Nat) :
    s.toTest.check_active id = check_active s id := rfl

theorem test_check_bounds (s : UM) (id off : Nat) :
    s.toTest.check_bounds id off = check_bounds s id off := rfl

theorem test_rd (s : UM) (i : Nat) : s.toTest.rd i = s.rd i := rfl

theorem test_free_array_ok (s : UM) (id : Nat) (h0 : id ≠ 0) (hact : s.isActive id) :
    s.toTest.free_array id = Except.ok (s.freed id).toTest := by
  obtain ⟨hlt, hfl⟩ := hact
  unfold TestUM.free_array
  have hg : ¬ (id ≥ s.toTest.arrays.length ∨ s.toTest.active.getD id 0 = 0) := by
    intro c
    rcases c with c | c
    · have c2 : id ≥ s.arrays.length := c
      omega
    · exact hfl c
  rw [if_neg h0, if_neg hg]
  rfl

theorem test_free_array_err (s : UM) (id : Nat) (h : id = 0 ∨ ¬ s.isActive id) :
    ∃ e, s.toTest.free_array id = Except.error e := by
  unfold TestUM.free_array
  by_cases h0 : id = 0
  · rw [if_pos h0]; exact ⟨_, rfl⟩
  · rw [if_neg h0]
    have hn : ¬ s.isActive id := by rcases h with h | h; exact absurd h h0; exact h
    have : id ≥ s.toTest.arrays.length ∨ s.toTest.active.getD id 0 = 0 := by
      unfold UM.isActive at hn
      by_cases c : id < s.arrays.length
      · right; by_contra c2; exact hn ⟨c, c2⟩
      · left; show id ≥ s.arrays.length; omega
    rw [if_pos this]; exact ⟨_, rfl⟩

theorem test_alloc_array (s : UM) (h : WF s) (n : Nat) :
    (∃ id t1, alloc_array s n = Except.ok (id, t1) ∧
        s.toTest.alloc_array n = Except.ok (id, t1.toTest)) ∨
    ((∃ e, alloc_array s n = Except.error e) ∧
        ∃ e, s.toTest.alloc_array n = Except.error e) := by
  rcases alloc_array_cases s h n with ⟨l, i, hs, h0, hlt, _, _, he⟩ | ⟨hnil, hlt, he⟩ |
    ⟨hnil, hlen, he⟩
  · left
    refine ⟨i, _, he, ?_⟩
    have hl : s.free_ids.getLast? = some i := by rw [hs]; simp
    have hd : s.free_ids.dropLast = l := by rw [hs]; simp
    have hlt2 : ¬ (i ≥ s.arrays.length) := by omega
    simp [TestUM.alloc_array, UM.toTest, hl, hd, hlt2, h0, UM.recycled]
  · left
    refine ⟨_, _, he, ?_⟩
    have hm : s.arrays.length % 4294967296 = s.arrays.length := Nat.mod_eq_of_lt hlt
    have hne : s.arrays.length ≠ 0 := by have := h.nonempty; omega
    simp [TestUM.alloc_array, UM.toTest, hnil, hm, hne, UM.minted]
  · right
    refine ⟨⟨_, he⟩, "internal: allocated id 0 (forbidden)", ?_⟩
    simp [TestUM.alloc_array, UM.toTest, hnil, hlen, fail]

theorem set_zero_self (l : List (List Nat)) : l.set 0 (l[0]?.getD []) = l := by
  cases l with
  | nil => rfl
  | cons a t => simp

/-- C8: in a reachable, not yet halted state, one cycle of `run` of `src/um.cpp` and one
cycle of `run` of `src/test_um.cpp` started in the same state agree: both fail, or both
halt, or both continue; when they do not fail the registers, segments, active flags,
recycling stack and output are the same, and when they continue `pc` is the same. -/
theorem variants_agree (s : UM) (h : Reachable s) (hh : s.halted = false) :
    agree (cycle s) s.toTest.cycle := by
  have hw := h.wf
  by_cases hpc : s.pc < s.seglen 0
  swap
  · have hpc2 : s.pc ≥ (s.arrays.getD 0 []).length := by unfold UM.seglen at hpc; omega
    have hpc3 : s.toTest.pc ≥ (s.toTest.arrays.getD 0 []).length := hpc2
    unfold cycle TestUM.cycle
    rw [if_pos hpc2, if_pos hpc3]
    trivial
  have hpc2 : ¬ (s.pc ≥ (s.arrays.getD 0 []).length) := by unfold UM.seglen at hpc; omega
  have hpc3 : ¬ (s.toTest.pc ≥ (s.toTest.arrays.getD 0 []).length) := hpc2
  have hfetch : (s.toTest.arrays.getD 0 []).getD s.toTest.pc 0 = s.fetch := rfl
  have herr : ∀ {e : String}, dispatch s s.fetch = Except.error e →
      ∀ e', s.toTest.cycle = TestStep.failed e' → agree (cycle s) s.toTest.cycle := by
    intro e he e' ht
    have hc : cycle s = Except.error e := by
      unfold cycle
      rw [if_neg hpc2]
      show (match dispatch s s.fetch with
        | Except.error e => Except.error e
        | Except.ok (um1, advance_pc) => _) = _
      rw [he]
    rw [hc, ht]
    trivial
  rcases op_cases (OP s.fetch) with o | o | o | o | o | o | o | o | o | o | o | o | o | o | o
  · rw [cycle_of_dispatch hpc (dispatch_0 s _ o)]
    simp only [TestUM.cycle, if_neg hpc3, hfetch, OPC_eq, Astd_eq, Bstd_eq, Cstd_eq, o, test_rd]
    by_cases c : s.rd (C s.fetch) = 0
    · simp [agree, TestUM.finish, same_pool, hh, UM.toTest, c]
    · simp [agree, TestUM.finish, same_pool, hh, UM.toTest, c, UM.wr, TestUM.wr]
  · by_cases c : s.isActive (s.rd (B s.fetch)) ∧ s.rd (C s.fetch) < s.seglen (s.rd (B s.fetch))
    · rw [cycle_of_dispatch hpc (dispatch_1_ok s _ o c.1 c.2)]
      simp only [TestUM.cycle, if_neg hpc3, hfetch, OPC_eq, Astd_eq, Bstd_eq, Cstd_eq, o,
        test_rd, test_check_active, test_check_bounds, check_active_ok s _ c.1,
        check_bounds_ok s _ _ c.1 c.2]
      simp [agree, TestUM.finish, same_pool, hh, UM.toTest, UM.wr, TestUM.wr]
    · obtain ⟨e, he⟩ := dispatch_1_err s _ o
        (by by_contra d; push_neg at d; exact c ⟨d.1, d.2⟩)
      by_cases ca : s.isActive (s.rd (B s.fetch))
      · have cb : s.seglen (s.rd (B s.fetch)) ≤ s.rd (C s.fetch) := by
          by_contra d; exact c ⟨ca, by omega⟩
        refine herr he "array index out of bounds" ?_
        simp only [TestUM.cycle, if_neg hpc3, hfetch, OPC_eq, Astd_eq, Bstd_eq, Cstd_eq, o,
          test_rd, test_check_active, test_check_bounds, check_active_ok s _ ca,
          check_bounds_err s _ _ ca cb]
        simp
      · refine herr he ("accessing non-active array id=" ++ toString (s.rd (B s.fetch))) ?_
        simp only [TestUM.cycle, if_neg hpc3, hfetch, OPC_eq, Astd_eq, Bstd_eq, Cstd_eq, o,
          test_rd, test_check_active, test_check_bounds, check_active_err s _ ca]
        simp
  · by_cases c : s.isActive (s.rd (A s.fetch)) ∧ s.rd (B s.fetch) < s.seglen (s.rd (A s.fetch))
    · rw [cycle_of_dispatch hpc (dispatch_2_ok s _ o c.1 c.2)]
      simp only [TestUM.cycle, if_neg hpc3, hfetch, OPC_eq, Astd_eq, Bstd_eq, Cstd_eq, o,
        test_rd, test_check_active, test_check_bounds, check_active_ok s _ c.1,
        check_bounds_ok s _ _ c.1 c.2]
      simp [agree, TestUM.finish, same_pool, hh, UM.toTest, UM.amended]
    · obtain ⟨e, he⟩ := dispatch_2_err s _ o
        (by by_contra d; push_neg at d; exact c ⟨d.1, d.2⟩)
      by_cases ca : s.isActive (s.rd (A s.fetch))
      · have cb : s.seglen (s.rd (A s.fetch)) ≤ s.rd (B s.fetch) := by
          by_contra d; exact c ⟨ca, by omega⟩
        refine herr he "array index out of bounds" ?_
        simp only [TestUM.cycle, if_neg hpc3, hfetch, OPC_eq, Astd_eq, Bstd_eq, Cstd_eq, o,
          test_rd, test_check_active, test_check_bounds, check_active_ok s _ ca,
          check_bounds_err s _ _ ca cb]
        simp
      · refine herr he ("accessing non-active array id=" ++ toString (s.rd (A s.fetch))) ?_
        simp only [TestUM.cycle, if_neg hpc3, hfetch, OPC_eq, Astd_eq, Bstd_eq, Cstd_eq, o,
          test_rd, test_check_active, test_check_bounds, check_active_err s _ ca]
        simp
  · rw [cycle_of_dispatch hpc (dispatch_3 s _ o)]
    simp only [TestUM.cycle, if_neg hpc3, hfetch, OPC_eq, Astd_eq, Bstd_eq, Cstd_eq, o, test_rd]
    have hm : (s.rd (B s.fetch) + s.rd (C s.fetch)) % 18446744073709551616 % 4294967296 =
        (s.rd (B s.fetch) + s.rd (C s.fetch)) % 4294967296 :=
      Nat.mod_mod_of_dvd _ (by norm_num)
    simp [agree, TestUM.finish, same_pool, hh, UM.toTest, UM.wr, TestUM.wr, hm]
  · rw [cycle_of_dispatch hpc (dispatch_4 s _ o)]
    simp only [TestUM.cycle, if_neg hpc3, hfetch, OPC_eq, Astd_eq, Bstd_eq, Cstd_eq, o, test_rd]
    have hm : (s.rd (B s.fetch) * s.rd (C s.fetch)) % 18446744073709551616 % 4294967296 =
        (s.rd (B s.fetch) * s.rd (C s.fetch)) % 4294967296 :=
      Nat.mod_mod_of_dvd _ (by norm_num)
    simp [agree, TestUM.finish, same_pool, hh, UM.toTest, UM.wr, TestUM.wr, hm]
  · by_cases c : s.rd (C s.fetch) = 0
    · refine herr (dispatch_5_err s _ o c) "division by zero" ?_
      simp only [TestUM.cycle, if_neg hpc3, hfetch, OPC_eq, Astd_eq, Bstd_eq, Cstd_eq, o,
        test_rd]
      simp [c]
    · rw [cycle_of_dispatch hpc (dispatch_5_ok s _ o c)]
      simp only [TestUM.cycle, if_neg hpc3, hfetch, OPC_eq, Astd_eq, Bstd_eq, Cstd_eq, o,
        test_rd]
      simp [agree, TestUM.finish, same_pool, hh, UM.toTest, UM.wr, TestUM.wr, c]
  · rw [cycle_of_dispatch hpc (dispatch_6 s _ o)]
    simp only [TestUM.cycle, if_neg hpc3, hfetch, OPC_eq, Astd_eq, Bstd_eq, Cstd_eq, o, test_rd]
    simp [agree, TestUM.finish, same_pool, hh, UM.toTest, UM.wr, TestUM.wr]
  · rw [cycle_of_dispatch hpc (dispatch_7 s _ o)]
    simp only [TestUM.cycle, if_neg hpc3, hfetch, OPC_eq, Astd_eq, Bstd_eq, Cstd_eq, o, test_rd]
    simp [agree, same_pool, UM.toTest]
  · rcases test_alloc_array s hw (s.rd (C s.fetch)) with ⟨id, t1, ha, hb⟩ | ⟨⟨e, ha⟩, e', hb⟩
    · rw [cycle_of_dispatch hpc (dispatch_8_ok s _ o ha)]
      simp only [TestUM.cycle, if_neg hpc3, hfetch, OPC_eq, Astd_eq, Bstd_eq, Cstd_eq, o,
        test_rd, hb]
      have hh1 : t1.halted = false := by
        rcases alloc_array_cases s hw (s.rd (C s.fetch)) with ⟨l, i, _, _, _, _, _, he⟩ |
          ⟨_, _, he⟩ | ⟨_, _, he⟩
        · rw [he] at ha
          simp only [Except.ok.injEq, Prod.mk.injEq] at ha
          rw [← ha.2]; exact hh
        · rw [he] at ha
          simp only [Except.ok.injEq, Prod.mk.injEq] at ha
          rw [← ha.2]; exact hh
        · rw [he] at ha; cases ha
      simp [agree, TestUM.finish, same_pool, hh1, UM.toTest, UM.wr, TestUM.wr]
    · refine herr (dispatch_8_err s _ o ha) e' ?_
      simp only [TestUM.cycle, if_neg hpc3, hfetch, OPC_eq, Astd_eq, Bstd_eq, Cstd_eq, o,
        test_rd, hb]
      simp
  · by_cases c : s.rd (C s.fetch) ≠ 0 ∧ s.isActive (s.rd (C s.fetch))
    · rw [cycle_of_dispatch hpc (dispatch_9_ok s _ o (free_array_ok s _ c.1 c.2))]
      simp only [TestUM.cycle, if_neg hpc3, hfetch, OPC_eq, Astd_eq, Bstd_eq, Cstd_eq, o,
        test_rd, test_free_array_ok s _ c.1 c.2]
      simp [agree, TestUM.finish, same_pool, hh, UM.toTest, UM.freed]
    · have c2 : s.rd (C s.fetch) = 0 ∨ ¬ s.isActive (s.rd (C s.fetch)) := by
        by_contra d; push_neg at d; exact c ⟨d.1, d.2⟩
      obtain ⟨e, he⟩ := free_array_err s _ c2
      obtain ⟨e', he'⟩ := test_free_array_err s _ c2
      refine herr (dispatch_9_err s _ o he) e' ?_
      simp only [TestUM.cycle, if_neg hpc3, hfetch, OPC_eq, Astd_eq, Bstd_eq, Cstd_eq, o,
        test_rd, he']
      simp
  · by_cases c : s.rd (C s.fetch) ≤ 255
    · rw [cycle_of_dispatch hpc (dispatch_10_ok s _ o c)]
      simp only [TestUM.cycle, if_neg hpc3, hfetch, OPC_eq, Astd_eq, Bstd_eq, Cstd_eq, o,
        test_rd]
      have hm : s.rd (C s.fetch) &&& 0xFF = s.rd (C s.fetch) % 256 :=
        Nat.and_pow_two_sub_one_eq_mod _ 8
      have c3 : ¬ (s.rd (C s.fetch) > 255) := by omega
      simp [agree, TestUM.finish, same_pool, hh, UM.toTest, hm, c3]
    · refine herr (dispatch_10_err s _ o (by omega)) "output value > 255" ?_
      simp only [TestUM.cycle, if_neg hpc3, hfetch, OPC_eq, Astd_eq, Bstd_eq, Cstd_eq, o,
        test_rd]
      have c3 : s.rd (C s.fetch) > 255 := by omega
      simp [c3]
  · cases hi : s.input with
    | nil =>
      rw [cycle_of_dispatch hpc (dispatch_11_eof s _ o hi)]
      have hi2 : s.toTest.input = [] := hi
      simp only [TestUM.cycle, if_neg hpc3, hfetch, OPC_eq, Astd_eq, Bstd_eq, Cstd_eq, o,
        test_rd, hi2]
      simp [agree, TestUM.finish, same_pool, hh, UM.toTest, UM.wr, TestUM.wr, hi]
    | cons ch rest =>
      rw [cycle_of_dispatch hpc (dispatch_11_byte s _ o hi)]
      have hi2 : s.toTest.input = ch :: rest := hi
      simp only [TestUM.cycle, if_neg hpc3, hfetch, OPC_eq, Astd_eq, Bstd_eq, Cstd_eq, o,
        test_rd, hi2]
      have hm : ch.val &&& 0xFF = ch.val % 256 := Nat.and_pow_two_sub_one_eq_mod _ 8
      simp [agree, TestUM.finish, same_pool, hh, UM.toTest, UM.wr, TestUM.wr, hm]
  · by_cases hb : s.rd (B s.fetch) = 0
    · rw [cycle_of_dispatch hpc (dispatch_12_zero s _ o hb)]
      have ha0 : s.isActive 0 := ⟨hw.nonempty, by rw [hw.act0]; decide⟩
      simp only [TestUM.cycle, if_neg hpc3, hfetch, OPC_eq, Astd_eq, Bstd_eq, Cstd_eq, o,
        test_rd, test_check_active, hb, check_active_ok s _ ha0]
      simp [agree, TestUM.finish, same_pool, hh, UM.toTest, set_zero_self]
    · by_cases ha : s.isActive (s.rd (B s.fetch))
      · rw [cycle_of_dispatch hpc (dispatch_12_ok s _ o hb ha)]
        simp only [TestUM.cycle, if_neg hpc3, hfetch, OPC_eq, Astd_eq, Bstd_eq, Cstd_eq, o,
          test_rd, test_check_active, check_active_ok s _ ha]
        simp [agree, TestUM.finish, same_pool, hh, UM.toTest, UM.loaded]
      · obtain ⟨e, he⟩ := dispatch_12_err s _ o hb ha
        refine herr he ("accessing non-active array id=" ++ toString (s.rd (B s.fetch))) ?_
        simp only [TestUM.cycle, if_neg hpc3, hfetch, OPC_eq, Astd_eq, Bstd_eq, Cstd_eq, o,
          test_rd, test_check_active, check_active_err s _ ha]
        simp
  · rw [cycle_of_dispatch hpc (dispatch_13 s _ o)]
    simp only [TestUM.cycle, if_neg hpc3, hfetch, OPC_eq, o]
    simp [agree, TestUM.finish, same_pool, hh, UM.toTest, UM.wr, TestUM.wr]
  · refine herr (dispatch_bad s _ o) "invalid opcode" ?_
    have h13 : OP s.fetch ≠ 13 := by omega
    have h0 : OP s.fetch ≠ 0 := by omega
    have h1 : OP s.fetch ≠ 1 := by omega
    have h2 : OP s.fetch ≠ 2 := by omega
    have h3 : OP s.fetch ≠ 3 := by omega
    have h4 : OP s.fetch ≠ 4 := by omega
    have h5 : OP s.fetch ≠ 5 := by omega
    have h6 : OP s.fetch ≠ 6 := by omega
    have h7 : OP s.fetch ≠ 7 := by omega
    have h8 : OP s.fetch ≠ 8 := by omega
    have h9 : OP s.fetch ≠ 9 := by omega
    have h10 : OP s.fetch ≠ 10 := by omega
    have h11 : OP s.fetch ≠ 11 := by omega
    have h12 : OP s.fetch ≠ 12 := by omega
    simp only [TestUM.cycle, if_neg hpc3, hfetch, OPC_eq, if_neg h13, if_neg h0, if_neg h1,
      if_neg h2, if_neg h3, if_neg h4, if_neg h5, if_neg h6, if_neg h7, if_neg h8, if_neg h9,
      if_neg h10, if_neg h11, if_neg h12]

theorem variants_agree_witness :
    agree (cycle (pump_state 1 1)) (pump_state 1 1).toTest.cycle :=
  variants_agree (pump_state 1 1)
    (Reachable.step _ _ pump_load rfl (pump_alloc 0 (by norm_num))) rfl

/-! ## Division and Output -/

theorem cycle_err_of_dispatch {s : UM} {e : String} (hpc : s.pc < s.seglen 0)
    (hd : dispatch s s.fetch = Except.error e) : cycle s = Except.error e := by
  unfold cycle
  rw [if_neg (by unfold UM.seglen at hpc; omega)]
  show (match dispatch s s.fetch with
    | Except.error e => Except.error e
    | Except.ok (um1, advance_pc) => _) = _
  rw [hd]

/-- C11: when the fetched instruction is Division and the registers hold 32-bit words, the
cycle fails (with the diagnostic of division by zero, and without writing anything) exactly
when `R[C] = 0`; otherwise it succeeds, `R[A]` becomes the quotient `R[B] / R[C]` rounded
down, `pc` advances by one (as a `u32`) and nothing else changes. The program of scenario 5
loads, runs two Load Value cycles and fails on its third instruction with empty output. -/
theorem division_semantics :
    (∀ s : UM, s.pc < s.seglen 0 → OP s.fetch = 5 → (∀ r, s.R r < 4294967296) →
      ((∃ e, cycle s = Except.error e) ↔ s.rd (C s.fetch) = 0) ∧
      (s.rd (C s.fetch) = 0 → cycle s = Except.error "Division by zero") ∧
      (s.rd (C s.fetch) ≠ 0 →
        cycle s = Except.ok
          { s.wr (A s.fetch) (s.rd (B s.fetch) / s.rd (C s.fetch)) with
            pc := (s.pc + 1) % 4294967296 })) ∧
    (load_program (UM.fresh []) "scenario5.um" (some div_bytes) = Except.ok div0 ∧
      cycle div0 = Except.ok div1 ∧ cycle div1 = Except.ok div2 ∧
      div2.pc = 2 ∧ OP div2.fetch = 5 ∧ A div2.fetch = 3 ∧ B div2.fetch = 1 ∧
      C div2.fetch = 2 ∧ div2.rd 1 = 5 ∧ div2.rd 2 = 0 ∧ div2.output = [] ∧
      cycle div2 = Except.error "Division by zero" ∧
      run 3 div0 = some (Except.error "Division by zero")) := by
  refine ⟨?_, rfl, rfl, rfl, rfl, by decide, by decide, by decide, by decide, rfl, rfl, rfl,
    rfl, rfl⟩
  intro s hpc ho hr
  have hz : s.rd (C s.fetch) = 0 → cycle s = Except.error "Division by zero" :=
    fun c => cycle_err_of_dispatch hpc (dispatch_5_err s _ ho c)
  have hnz : s.rd (C s.fetch) ≠ 0 →
      cycle s = Except.ok
        { s.wr (A s.fetch) (s.rd (B s.fetch) / s.rd (C s.fetch)) with
          pc := (s.pc + 1) % 4294967296 } := by
    intro c
    have hq : s.rd (B s.fetch) / s.rd (C s.fetch) % 4294967296 =
        s.rd (B s.fetch) / s.rd (C s.fetch) := by
      apply Nat.mod_eq_of_lt
      have h1 : s.rd (B s.fetch) < 4294967296 := hr _
      exact lt_of_le_of_lt (Nat.div_le_self _ _) h1
    have := cycle_of_dispatch hpc (dispatch_5_ok s _ ho c)
    rw [hq] at this
    simpa using this
  refine ⟨⟨?_, fun c => ⟨_, hz c⟩⟩, hz, hnz⟩
  rintro ⟨e, he⟩
  by_contra c
  rw [hnz c] at he
  cases he

theorem division_semantics_witness :
    ((∃ e, cycle quot_state = Except.error e) ↔ quot_state.rd (C quot_state.fetch) = 0) ∧
      (quot_state.rd (C quot_state.fetch) = 0 →
        cycle quot_state = Except.error "Division by zero") ∧
      (quot_state.rd (C quot_state.fetch) ≠ 0 →
        cycle quot_state = Except.ok
          { quot_state.wr (A quot_state.fetch)
              (quot_state.rd (B quot_state.fetch) / quot_state.rd (C quot_state.fetch)) with
            pc := (quot_state.pc + 1) % 4294967296 }) :=
  division_semantics.1 quot_state (by decide) (by decide)
    (by intro r; unfold quot_state; simp only; split_ifs <;> decide)

/-- C12: when the fetched instruction is Output, the cycle fails (writing nothing) exactly
when `R[C] > 255`; otherwise it succeeds, the one byte `R[C]` is appended after the earlier
output, `pc` advances and nothing else changes. -/
theorem output_semantics (s : UM) (hpc : s.pc < s.seglen 0) (ho : OP s.fetch = 10) :
    ((∃ e, cycle s = Except.error e) ↔ s.rd (C s.fetch) > 255) ∧
    (s.rd (C s.fetch) > 255 → cycle s = Except.error "Output value out of range") ∧
    (s.rd (C s.fetch) ≤ 255 →
      cycle s = Except.ok
        { s with output := s.output ++ [s.rd (C s.fetch)], pc := (s.pc + 1) % 4294967296 }) := by
  have hz : s.rd (C s.fetch) > 255 → cycle s = Except.error "Output value out of range" :=
    fun c => cycle_err_of_dispatch hpc (dispatch_10_err s _ ho c)
  have hnz : s.rd (C s.fetch) ≤ 255 →
      cycle s = Except.ok
        { s with output := s.output ++ [s.rd (C s.fetch)],
                 pc := (s.pc + 1) % 4294967296 } := by
    intro c
    have hq : s.rd (C s.fetch) % 256 = s.rd (C s.fetch) := Nat.mod_eq_of_lt (by omega)
    have := cycle_of_dispatch hpc (dispatch_10_ok s _ ho c)
    rw [hq] at this
    simpa using this
  refine ⟨⟨?_, fun c => ⟨_, hz c⟩⟩, hz, hnz⟩
  rintro ⟨e, he⟩
  by_contra c
  rw [hnz (by omega)] at he
  cases he

theorem output_semantics_witness :
    ((∃ e, cycle out_state = Except.error e) ↔ out_state.rd (C out_state.fetch) > 255) ∧
    (out_state.rd (C out_state.fetch) > 255 →
      cycle out_state = Except.error "Output value out of range") ∧
    (out_state.rd (C out_state.fetch) ≤ 255 →
      cycle out_state = Except.ok
        { out_state with output := out_state.output ++ [out_state.rd (C out_state.fetch)],
                         pc := (out_state.pc + 1) % 4294967296 }) :=
  output_semantics out_state (by decide) (by decide)

/-! ## Scenario 1 -/

/-- C13, refuted as stated: the second word `E0000000` of scenario 1 has opcode 14, not 7,
and the run ends in the fatal failure of an unknown opcode instead of halting. -/
theorem scenario1_fails :
    load_program (UM.fresh []) "scenario1.um" (some scen1_bytes) = Except.ok scen1_0 ∧
      OP 0xE0000000 = 14 ∧
      run 2 scen1_0 = some (Except.error "Unknown operation code: 14") ∧
      ∀ fuel t, run fuel scen1_0 ≠ some (Except.ok t) := by
  refine ⟨rfl, by decide, rfl, ?_⟩
  intro fuel t
  match fuel with
  | 0 => intro h; cases h
  | 1 => intro h; cases h
  | n + 2 => intro h; cases h

/-- C13, amended: the first word of scenario 1 (opcode 13, A = 2, value `0x41`) sets
`R[2] = 0x41`; the second word `E0000000` has opcode 14 and makes the run fail with no
output; with the Halt word `70000000` in its place the run halts successfully with
`R[2] = 0x41` and no output. -/
theorem scenario1_behaviour :
    (load_program (UM.fresh []) "scenario1.um" (some scen1_bytes) = Except.ok scen1_0 ∧
      OP 0xD4000041 = 13 ∧ cycle scen1_0 = Except.ok scen1_1 ∧ scen1_1.rd 2 = 0x41 ∧
      scen1_1.output = [] ∧ OP scen1_1.fetch = 14 ∧
      cycle scen1_1 = Except.error "Unknown operation code: 14" ∧
      run 2 scen1_0 = some (Except.error "Unknown operation code: 14")) ∧
    (load_program (UM.fresh []) "scenario1.um" (some halt1_bytes) = Except.ok halt1_0 ∧
      OP 0x70000000 = 7 ∧ run 2 halt1_0 = some (Except.ok halt1_2) ∧
      halt1_2.halted = true ∧ halt1_2.rd 2 = 0x41 ∧ halt1_2.output = []) :=
  ⟨⟨rfl, by decide, rfl, rfl, rfl, by decide, rfl, rfl⟩, rfl, by decide, rfl, rfl, rfl, rfl⟩

/-! ## Scenario 3 -/

theorem run_halted (n : Nat) (s : UM) (h : s.halted = true) : run n s = some (Except.ok s) := by
  unfold run
  simp [h]

theorem run_step (n : Nat) {s t : UM} (h : s.halted = false) (hc : cycle s = Except.ok t) :
    run (n + 1) s = run n t := by
  rw [run]
  simp [h, hc]

theorem run_fail (n : Nat) {s : UM} {e : String} (h : s.halted = false)
    (hc : cycle s = Except.error e) : run (n + 1) s = some (Except.error e) := by
  rw [run]
  simp [h, hc]

theorem scen3_run : run 5 scen3_0 = some (Except.ok scen3_end) := by
  have c0 : cycle scen3_0 = Except.ok scen3_1 := rfl
  have c1 : cycle scen3_1 = Except.ok scen3_2 := rfl
  have c2 : cycle scen3_2 = Except.ok scen3_3 := rfl
  have c3 : cycle scen3_3 = Except.ok scen3_4 := rfl
  have c4 : cycle scen3_4 = Except.ok scen3_end := rfl
  rw [run_step 4 rfl c0, run_step 3 rfl c1, run_step 2 rfl c2, run_step 1 rfl c3,
    run_step 0 rfl c4, run_halted 0 _ rfl]

theorem add3_run : run 5 add3_0 = some (Except.ok add3_end) := by
  have c0 : cycle add3_0 = Except.ok add3_1 := rfl
  have c1 : cycle add3_1 = Except.ok add3_2 := rfl
  have c2 : cycle add3_2 = Except.ok add3_3 := rfl
  have c3 : cycle add3_3 = Except.ok add3_4 := rfl
  have c4 : cycle add3_4 = Except.ok add3_end := rfl
  rw [run_step 4 rfl c0, run_step 3 rfl c1, run_step 2 rfl c2, run_step 1 rfl c3,
    run_step 0 rfl c4, run_halted 0 _ rfl]

/-- C14, refuted as stated: the word `3000008A` decodes to A = 2, not 3, so the sum lands
in `R[2]` and the program of scenario 3 prints the byte 0 held by `R[3]`, not `0x39`. -/
theorem scenario3_prints_zero :
    load_program (UM.fresh []) "scenario3.um" (some scen3_bytes) = Except.ok scen3_0 ∧
      A 0x3000008A = 2 ∧ A 0x3000008A ≠ 3 ∧
      run 5 scen3_0 = some (Except.ok scen3_end) ∧ scen3_end.output = [0] ∧
      scen3_end.output ≠ [0x39] :=
  ⟨rfl, by decide, by decide, scen3_run, rfl, by decide⟩

/-- C14, amended: the word `3000008A` is the Addition instruction with A = 2, B = 1, C = 2;
the program of scenario 3 halts successfully after emitting exactly one byte, 0, with the
sum `0x39` in `R[2]`. The Addition with A = 3, B = 1, C = 2 is the word `300000CA`, and
with it the program emits exactly the byte `0x39` and halts successfully. -/
theorem scenario3_behaviour :
    (OP 0x3000008A = 3 ∧ A 0x3000008A = 2 ∧ B 0x3000008A = 1 ∧ C 0x3000008A = 2 ∧
      load_program (UM.fresh []) "scenario3.um" (some scen3_bytes) = Except.ok scen3_0 ∧
      run 5 scen3_0 = some (Except.ok scen3_end) ∧ scen3_end.halted = true ∧
      scen3_end.output = [0] ∧ scen3_end.rd 2 = 0x39 ∧ scen3_end.rd 3 = 0) ∧
    (OP 0x300000CA = 3 ∧ A 0x300000CA = 3 ∧ B 0x300000CA = 1 ∧ C 0x300000CA = 2 ∧
      load_program (UM.fresh []) "scenario3.um" (some add3_bytes) = Except.ok add3_0 ∧
      run 5 add3_0 = some (Except.ok add3_end) ∧ add3_end.halted = true ∧
      add3_end.output = [0x39] ∧ add3_end.rd 3 = 0x39) :=
  ⟨⟨by decide, by decide, by decide, by decide, rfl, scen3_run, rfl, rfl, rfl, rfl⟩,
    by decide, by decide, by decide, by decide, rfl, add3_run, rfl, rfl, rfl⟩

/-! ## The loader -/

theorem be_word_eq (b0 b1 b2 b3 : Byte) :
    be_word b0 b1 b2 b3 =
      b0.val * 2 ^ 24 + b1.val * 2 ^ 16 + b2.val * 2 ^ 8 + b3.val := by
  unfold be_word
  have e0 := b0.isLt
  have e1 := b1.isLt
  have e2 := b2.isLt
  have e3 := b3.isLt
  rw [Nat.shiftLeft_eq, Nat.shiftLeft_eq, Nat.shiftLeft_eq]
  have h1 : b0.val * 2 ^ 24 ||| b1.val * 2 ^ 16 = b0.val * 2 ^ 24 + b1.val * 2 ^ 16 := by
    have := Nat.mul_add_lt_is_or (i := 24) (b := b1.val * 2 ^ 16) (by omega) b0.val
    rw [Nat.mul_comm (2 ^ 24)] at this
    exact this.symm
  have h2 : (b0.val * 2 ^ 24 + b1.val * 2 ^ 16) ||| b2.val * 2 ^ 8 =
      b0.val * 2 ^ 24 + b1.val * 2 ^ 16 + b2.val * 2 ^ 8 := by
    have := Nat.mul_add_lt_is_or (i := 16) (b := b2.val * 2 ^ 8) (by omega)
      (b0.val * 2 ^ 8 + b1.val)
    have e : 2 ^ 16 * (b0.val * 2 ^ 8 + b1.val) = b0.val * 2 ^ 24 + b1.val * 2 ^ 16 := by
      omega
    rw [e] at this
    exact this.symm
  have h3 : (b0.val * 2 ^ 24 + b1.val * 2 ^ 16 + b2.val * 2 ^ 8) ||| b3.val =
      b0.val * 2 ^ 24 + b1.val * 2 ^ 16 + b2.val * 2 ^ 8 + b3.val := by
    have := Nat.mul_add_lt_is_or (i := 8) (b := b3.val) (by omega)
      (b0.val * 2 ^ 16 + b1.val * 2 ^ 8 + b2.val)
    have e : 2 ^ 8 * (b0.val * 2 ^ 16 + b1.val * 2 ^ 8 + b2.val) =
        b0.val * 2 ^ 24 + b1.val * 2 ^ 16 + b2.val * 2 ^ 8 := by
      omega
    rw [e] at this
    exact this.symm
  rw [h1, h2, h3]

theorem read_words_spec (bytes : List Byte) (acc : List Nat) :
    bytes.length % 4 = 0 →
      ∃ ws, read_words bytes acc = Except.ok (acc ++ ws) ∧ ws.length = bytes.length / 4 ∧
        ∀ i, i < bytes.length / 4 → ws[i]? = some (word_at bytes i) := by
  induction bytes, acc using read_words.induct with
  | case1 acc =>
    intro _
    exact ⟨[], by simp [read_words], rfl, fun i hi => absurd hi (by simp)⟩
  | case2 b0 b1 b2 b3 rest acc ih =>
    intro hlen
    have hl : (b0 :: b1 :: b2 :: b3 :: rest).length = rest.length + 4 := by simp
    obtain ⟨ws, h1, h2, h3⟩ := ih (by rw [hl] at hlen; omega)
    refine ⟨be_word b0 b1 b2 b3 :: ws, ?_, ?_, ?_⟩
    · rw [read_words, h1]; simp
    · rw [hl, List.length_cons, h2]; omega
    · intro i hi
      cases i with
      | zero =>
        simp only [List.getElem?_cons_zero, word_at]
        rw [be_word_eq]
        rfl
      | succ k =>
        rw [List.getElem?_cons_succ, h3 k (by rw [hl] at hi; omega)]
        have e0 : 4 * (k + 1) = (4 * k) + 1 + 1 + 1 + 1 := by ring
        have e1 : 4 * (k + 1) + 1 = (4 * k + 1) + 1 + 1 + 1 + 1 := by ring
        have e2 : 4 * (k + 1) + 2 = (4 * k + 2) + 1 + 1 + 1 + 1 := by ring
        have e3 : 4 * (k + 1) + 3 = (4 * k + 3) + 1 + 1 + 1 + 1 := by ring
        simp only [word_at, e0, e1, e2, e3, List.getD_cons_succ]
  | case3 bytes acc h1 h2 =>
    intro hlen
    exfalso
    match bytes, h1, h2, hlen with
    | [], h1, _, _ => exact h1 rfl
    | [_], _, _, hlen => simp at hlen
    | [_, _], _, _, hlen => simp at hlen
    | [_, _, _], _, _, hlen => simp at hlen
    | b0 :: b1 :: b2 :: b3 :: rest, _, h2, _ => exact h2 b0 b1 b2 b3 rest rfl

theorem read_words_err (bytes : List Byte) (acc : List Nat) :
    bytes.length % 4 ≠ 0 →
      read_words bytes acc = Except.error "program file size not divisible by 4" := by
  induction bytes, acc using read_words.induct with
  | case1 acc => intro h; simp at h
  | case2 b0 b1 b2 b3 rest acc ih =>
    intro hlen
    have hl : (b0 :: b1 :: b2 :: b3 :: rest).length = rest.length + 4 := by simp
    rw [read_words]
    exact ih (by rw [hl] at hlen; omega)
  | case3 bytes acc h1 h2 =>
    intro _
    rw [read_words]
    · rfl
    · exact h1
    · exact h2

/-- C15: for a byte sequence whose length is a multiple of 4, `load_program` succeeds; the
pool is the single segment 0, active, of length (number of bytes)/4, whose word `i` is
`b[4i]·2^24 + b[4i+1]·2^16 + b[4i+2]·2^8 + b[4i+3]`; all registers are 0, `pc = 0`, the
recycling stack is empty and the machine is not halted. -/
theorem load_program_words (um : UM) (path : String) (bytes : List Byte)
    (h : bytes.length % 4 = 0) :
    ∃ s prog, load_program um path (some bytes) = Except.ok s ∧ s.arrays = [prog] ∧
      prog.length = bytes.length / 4 ∧
      (∀ i, i < bytes.length / 4 →
        prog[i]? = some ((bytes.getD (4 * i) 0).val * 2 ^ 24 +
          (bytes.getD (4 * i + 1) 0).val * 2 ^ 16 + (bytes.getD (4 * i + 2) 0).val * 2 ^ 8 +
          (bytes.getD (4 * i + 3) 0).val)) ∧
      s.R = (fun _ => 0) ∧ s.pc = 0 ∧ s.active = [1] ∧ s.free_ids = [] ∧
      s.halted = false := by
  obtain ⟨ws, h1, h2, h3⟩ := read_words_spec bytes [] h
  rw [List.nil_append] at h1
  refine ⟨{ um with
      arrays := [ws], active := [1], free_ids := [], pc := 0, halted := false,
      R := fun _ => 0 }, ws, ?_, rfl, h2, h3, rfl, rfl, rfl, rfl, rfl⟩
  simp only [load_program, h1]

theorem load_program_words_witness :
    ∃ s prog, load_program (UM.fresh []) "demo.um" (some demo_bytes) = Except.ok s ∧
      s.arrays = [prog] ∧ prog.length = demo_bytes.length / 4 ∧
      (∀ i, i < demo_bytes.length / 4 →
        prog[i]? = some ((demo_bytes.getD (4 * i) 0).val * 2 ^ 24 +
          (demo_bytes.getD (4 * i + 1) 0).val * 2 ^ 16 +
          (demo_bytes.getD (4 * i + 2) 0).val * 2 ^ 8 +
          (demo_bytes.getD (4 * i + 3) 0).val)) ∧
      s.R = (fun _ => 0) ∧ s.pc = 0 ∧ s.active = [1] ∧ s.free_ids = [] ∧
      s.halted = false :=
  load_program_words (UM.fresh []) "demo.um" demo_bytes (by decide)

/-- C16, refuted as stated: the empty file, whose length 0 is not a positive multiple
of 4, is accepted by `load_program`. -/
theorem empty_file_loads :
    load_program (UM.fresh []) "empty.um" (some []) = Except.ok empty_state ∧
      ¬ (0 < ([] : List Byte).length ∧ ([] : List Byte).length % 4 = 0) :=
  ⟨rfl, by decide⟩

/-- C16, amended: on a file that can be opened `load_program` fails exactly when the
number of bytes is not a multiple of 4, so files of 1, 2, 3 or 5 bytes are rejected by the
loader. The empty file is accepted and leaves an empty segment 0, on which the first cycle
of `run` fails at the fetch, before any instruction is executed. -/
theorem load_program_fails_iff (um : UM) (path : String) (bytes : List Byte) :
    ((∃ e, load_program um path (some bytes) = Except.error e) ↔ bytes.length % 4 ≠ 0) ∧
    (bytes.length % 4 ≠ 0 →
      load_program um path (some bytes) =
        Except.error "program file size not divisible by 4") ∧
    (bytes.length = 1 ∨ bytes.length = 2 ∨ bytes.length = 3 ∨ bytes.length = 5 →
      ∃ e, load_program um path (some bytes) = Except.error e) ∧
    (bytes = [] → ∃ s, load_program um path (some bytes) = Except.ok s ∧ s.arrays = [[]] ∧
      cycle s = Except.error "PC out of bounds" ∧
      run 1 s = some (Except.error "PC out of bounds")) := by
  have hbad : bytes.length % 4 ≠ 0 →
      load_program um path (some bytes) =
        Except.error "program file size not divisible by 4" := by
    intro hb
    simp only [load_program, read_words_err bytes [] hb]
  refine ⟨⟨?_, fun hb => ⟨_, hbad hb⟩⟩, hbad, ?_, ?_⟩
  · rintro ⟨e, he⟩ hz
    obtain ⟨ws, h1, -⟩ := read_words_spec bytes [] hz
    simp only [load_program, h1] at he
    cases he
  · intro hl
    exact ⟨_, hbad (by omega)⟩
  · rintro rfl
    exact ⟨_, rfl, rfl, rfl, rfl⟩

/-! ## Program counter -/

/-- Without any assumption on the state, a successful `alloc_array` either recycled the
top of the stack or minted a slot. -/
theorem alloc_array_shape {s : UM} {n id : Nat} {t : UM}
    (ha : alloc_array s n = Except.ok (id, t)) :
    (s.free_ids.getLast? = some id ∧ id < s.arrays.length ∧ s.active.getD id 0 = 0 ∧
        id ≠ 0 ∧ t = s.recycled s.free_ids.dropLast id n) ∨
    (s.free_ids.getLast? = none ∧ id = s.arrays.length % 4294967296 ∧ id ≠ 0 ∧
        t = s.minted n) := by
  unfold alloc_array at ha
  split at ha
  · rename_i i hl
    simp only at ha
    split at ha
    · cases ha
    · rename_i h1
      split at ha
      · cases ha
      · rename_i h2
        split at ha
        · cases ha
        · rename_i h3
          simp only [Except.ok.injEq, Prod.mk.injEq] at ha
          obtain ⟨rfl, rfl⟩ := ha
          left
          exact ⟨hl, by omega, by
            by_contra c
            exact h2 c, h3, rfl⟩
  · rename_i hl
    simp only at ha
    split at ha
    · cases ha
    · rename_i h3
      simp only [Except.ok.injEq, Prod.mk.injEq] at ha
      obtain ⟨rfl, rfl⟩ := ha
      right
      exact ⟨hl, rfl, h3, rfl⟩

theorem alloc_array_pc {s : UM} {n id : Nat} {t : UM}
    (ha : alloc_array s n = Except.ok (id, t)) : t.pc = s.pc := by
  rcases alloc_array_shape ha with ⟨-, -, -, -, rfl⟩ | ⟨-, -, -, rfl⟩
  · rfl
  · rfl

/-- C17: after a cycle that does not fail, if the opcode of the fetched instruction is
not 12 the new `pc` is the old `pc + 1` modulo `2^32` (also for opcode 13 and for Halt);
if it is 12 the new `pc` is the value `R[C]` held before the cycle, not incremented. -/
theorem pc_update (s t : UM) (hc : cycle s = Except.ok t) :
    (OP s.fetch ≠ 12 → t.pc = (s.pc + 1) % 4294967296) ∧
    (OP s.fetch = 12 → t.pc = s.rd (C s.fetch)) := by
  obtain ⟨_, t1, adv, hd, rfl⟩ := cycle_ok_iff.mp hc
  have hd' : dispatch s s.fetch = Except.ok (t1, adv) := hd
  have key : (OP s.fetch ≠ 12 ∧ adv = true ∧ t1.pc = s.pc) ∨
      (OP s.fetch = 12 ∧ adv = false ∧ t1.pc = s.rd (C s.fetch)) := by
    rcases dispatch_ok_cases hd' with ⟨o, a, rfl⟩ | ⟨o, a, -, -, rfl⟩ | ⟨o, a, -, -, rfl⟩ |
      ⟨o, a, rfl⟩ | ⟨o, a, rfl⟩ | ⟨o, a, -, rfl⟩ | ⟨o, a, rfl⟩ | ⟨o, a, rfl⟩ |
      ⟨o, a, i, t2, ha, rfl⟩ | ⟨o, a, -, -, rfl⟩ | ⟨o, a, -, rfl⟩ |
      ⟨o, a, ⟨-, rfl⟩ | ⟨ch, rest, -, rfl⟩⟩ | ⟨o, a, ⟨-, rfl⟩ | ⟨-, -, rfl⟩⟩ | ⟨o, a, rfl⟩
    · exact Or.inl ⟨by rw [o]; decide, a, by split <;> rfl⟩
    · exact Or.inl ⟨by rw [o]; decide, a, rfl⟩
    · exact Or.inl ⟨by rw [o]; decide, a, rfl⟩
    · exact Or.inl ⟨by rw [o]; decide, a, rfl⟩
    · exact Or.inl ⟨by rw [o]; decide, a, rfl⟩
    · exact Or.inl ⟨by rw [o]; decide, a, rfl⟩
    · exact Or.inl ⟨by rw [o]; decide, a, rfl⟩
    · exact Or.inl ⟨by rw [o]; decide, a, rfl⟩
    · exact Or.inl ⟨by rw [o]; decide, a, (alloc_array_pc ha : t2.pc = s.pc)⟩
    · exact Or.inl ⟨by rw [o]; decide, a, rfl⟩
    · exact Or.inl ⟨by rw [o]; decide, a, rfl⟩
    · exact Or.inl ⟨by rw [o]; decide, a, rfl⟩
    · exact Or.inl ⟨by rw [o]; decide, a, rfl⟩
    · exact Or.inr ⟨o, a, rfl⟩
    · exact Or.inr ⟨o, a, rfl⟩
    · exact Or.inl ⟨by rw [o]; decide, a, rfl⟩
  rcases key with ⟨o, rfl, hp⟩ | ⟨o, rfl, hp⟩
  · refine ⟨fun _ => ?_, fun c => absurd c o⟩
    show (t1.pc + 1) % 4294967296 = _
    rw [hp]
  · exact ⟨fun c => absurd o c, fun _ => hp⟩

theorem pc_update_witness :
    (OP demo0.fetch ≠ 12 → demo1.pc = (demo0.pc + 1) % 4294967296) ∧
    (OP demo0.fetch = 12 → demo1.pc = demo0.rd (C demo0.fetch)) :=
  pc_update demo0 demo1 rfl

/-! ## Recycling order -/

theorem alloc_array_top {s : UM} (h : WF s) {l : List Nat} {id : Nat} (n : Nat)
    (hs : s.free_ids = l ++ [id]) :
    alloc_array s n = Except.ok (id, s.recycled l id n) := by
  rcases alloc_array_cases s h n with ⟨l1, i, hs1, _, _, _, _, he⟩ | ⟨hnil, _, _⟩ |
    ⟨hnil, _, _⟩
  · rw [hs] at hs1
    obtain ⟨e1, e2⟩ := List.append_inj' hs1 rfl
    simp only [List.cons.injEq, and_true] at e2
    subst e1 e2
    exact he
  · rw [hs] at hnil; simp at hnil
  · rw [hs] at hnil; simp at hnil

theorem pump_length (k pc : Nat) : (pump_state k pc).arrays.length = k + 1 := by
  simp [pump_state]

/-- C18, refuted as stated: in the reachable state `pump_full` the recycling stack is empty
and `alloc_array` does not return the number of pool slots as a new id: it fails. -/
theorem mint_fails_on_full_pool :
    Reachable pump_full ∧ pump_full.free_ids = [] ∧
      pump_full.arrays.length = 4294967296 ∧
      alloc_array pump_full 0 = Except.error "internal: allocated id 0 (forbidden)" :=
  ⟨pump_reachable 4294967295 (by norm_num), rfl, pump_length 4294967295 0,
    alloc_array_exhausted pump_full 0 rfl (pump_length 4294967295 0)⟩

/-- C18, amended: in a reachable state, if the recycling stack is non-empty `alloc_array`
returns its top, the most recently freed id, and pops it, and the pool does not grow; if
it is empty and the pool has fewer than `2^32` slots, `alloc_array` returns the number of
pool slots as a new id and the pool grows by one. Hence for distinct active non-zero ids
`a` and `b`, freeing `a`, then `b`, then allocating twice returns `b` and then `a`. -/
theorem recycling_lifo (s : UM) (h : Reachable s) (n : Nat) :
    (∀ l id, s.free_ids = l ++ [id] →
      ∃ t, alloc_array s n = Except.ok (id, t) ∧ t.arrays.length = s.arrays.length ∧
        t.free_ids = l) ∧
    (s.free_ids = [] → s.arrays.length < 4294967296 →
      ∃ t, alloc_array s n = Except.ok (s.arrays.length, t) ∧
        t.arrays.length = s.arrays.length + 1 ∧ t.free_ids = []) ∧
    (∀ a b m, a ≠ b → a ≠ 0 → b ≠ 0 → s.isActive a → s.isActive b →
      ∃ s1 s2 s3 s4, free_array s a = Except.ok s1 ∧ free_array s1 b = Except.ok s2 ∧
        alloc_array s2 n = Except.ok (b, s3) ∧ alloc_array s3 m = Except.ok (a, s4)) := by
  have hw := h.wf
  refine ⟨?_, ?_, ?_⟩
  · intro l id hs
    refine ⟨_, alloc_array_top hw n hs, ?_, rfl⟩
    show (s.arrays.set id _).length = _
    rw [List.length_set]
  · intro hnil hlt
    rcases alloc_array_cases s hw n with ⟨l1, i, hs1, _, _, _, _, _⟩ | ⟨_, _, he⟩ |
      ⟨_, hlen, _⟩
    · rw [hnil] at hs1; simp at hs1
    · refine ⟨_, he, ?_, hnil⟩
      show (s.arrays ++ [_]).length = _
      simp
    · omega
  · intro a b m hab ha0 hb0 ha hb
    have hw1 : WF (s.freed a) := hw.freed ha0 ha
    have hb1 : (s.freed a).isActive b := by
      refine ⟨?_, ?_⟩
      · show b < (s.arrays.set a _).length
        rw [List.length_set]; exact hb.1
      · show (s.active.set a 0).getD b 0 ≠ 0
        rw [getD_set_eq, if_neg (fun c => hab c.1)]
        exact hb.2
    have hw2 : WF ((s.freed a).freed b) := hw1.freed hb0 hb1
    have hs2 : ((s.freed a).freed b).free_ids = (s.free_ids ++ [a]) ++ [b] := rfl
    have h3 := alloc_array_top hw2 n hs2
    have hw3 := (alloc_array_WF hw2 h3).1
    have hs3 : (((s.freed a).freed b).recycled (s.free_ids ++ [a]) b n).free_ids =
        s.free_ids ++ [a] := rfl
    exact ⟨_, _, _, _, free_array_ok s a ha0 ha, free_array_ok _ b hb0 hb1, h3,
      alloc_array_top hw3 m hs3⟩

theorem recycling_lifo_witness :
    (∀ l id, demo4.free_ids = l ++ [id] →
      ∃ t, alloc_array demo4 2 = Except.ok (id, t) ∧
        t.arrays.length = demo4.arrays.length ∧ t.free_ids = l) ∧
    (demo4.free_ids = [] → demo4.arrays.length < 4294967296 →
      ∃ t, alloc_array demo4 2 = Except.ok (demo4.arrays.length, t) ∧
        t.arrays.length = demo4.arrays.length + 1 ∧ t.free_ids = []) ∧
    (∀ a b m, a ≠ b → a ≠ 0 → b ≠ 0 → demo4.isActive a → demo4.isActive b →
      ∃ s1 s2 s3 s4, free_array demo4 a = Except.ok s1 ∧ free_array s1 b = Except.ok s2 ∧
        alloc_array s2 2 = Except.ok (b, s3) ∧ alloc_array s3 m = Except.ok (a, s4)) :=
  recycling_lifo demo4 demo4_reachable 2

/-! ## Amendment frame and pool well-formedness -/

theorem lt_length_of_getD_ne (l : List Nat) (i : Nat) (h : l.getD i 0 ≠ 0) : i < l.length := by
  by_contra c
  apply h
  rw [List.getD_eq_getElem?_getD, List.getElem?_eq_none (by omega)]
  rfl

theorem dispatch_keeps_length {s : UM} {w : Nat} {t : UM} {adv : Bool}
    (hok : dispatch s w = Except.ok (t, adv)) (id : Nat) (h0 : id ≠ 0) (hs : s.isActive id)
    (ht : t.isActive id) : t.seglen id = s.seglen id := by
  rcases dispatch_ok_cases hok with ⟨-, -, rfl⟩ | ⟨-, -, -, -, rfl⟩ | ⟨-, -, -, -, rfl⟩ |
    ⟨-, -, rfl⟩ | ⟨-, -, rfl⟩ | ⟨-, -, -, rfl⟩ | ⟨-, -, rfl⟩ | ⟨-, -, rfl⟩ |
    ⟨-, -, i, t1, ha, rfl⟩ | ⟨-, -, -, -, rfl⟩ | ⟨-, -, -, rfl⟩ |
    ⟨-, -, ⟨-, rfl⟩ | ⟨ch, rest, -, rfl⟩⟩ | ⟨-, -, ⟨-, rfl⟩ | ⟨-, -, rfl⟩⟩ | ⟨-, -, rfl⟩
  · split <;> rfl
  · rfl
  · show ((s.arrays.set _ _).getD id []).length = _
    rw [getD_set_eq]
    split
    · rename_i c
      rw [List.length_set, c.1]
      rfl
    · rfl
  · rfl
  · rfl
  · rfl
  · rfl
  · rfl
  · show t1.seglen id = s.seglen id
    rcases alloc_array_shape ha with ⟨-, -, hz, -, rfl⟩ | ⟨-, -, -, rfl⟩
    · show ((s.arrays.set i _).getD id []).length = _
      have hne : i ≠ id := by
        intro c; rw [c] at hz; exact hs.2 hz
      rw [getD_set_eq, if_neg (fun c => hne c.1)]
      rfl
    · show ((s.arrays ++ [_]).getD id []).length = _
      rw [getD_push, if_pos hs.1]
      rfl
  · by_cases c : s.rd (C w) = id
    · exfalso
      have h2 := ht.2
      change (s.active.set _ 0).getD id 0 ≠ 0 at h2
      have hl := lt_length_of_getD_ne _ _ hs.2
      rw [getD_set_eq, if_pos ⟨c, by rw [c]; exact hl⟩] at h2
      exact h2 rfl
    · show ((s.arrays.set _ _).getD id []).length = _
      rw [getD_set_eq, if_neg (fun d => c d.1)]
      rfl
  · rfl
  · rfl
  · rfl
  · rfl
  · show ((s.arrays.set 0 _).getD id []).length = _
    rw [getD_set_eq, if_neg (fun c => h0 c.1.symm)]
    rfl
  · rfl

theorem cycle_keeps_length {s t : UM} (hc : cycle s = Except.ok t) (id : Nat) (h0 : id ≠ 0)
    (hs : s.isActive id) (ht : t.isActive id) : t.seglen id = s.seglen id := by
  obtain ⟨_, t1, adv, hd, rfl⟩ := cycle_ok_iff.mp hc
  have ht1 : t1.isActive id := by
    revert ht
    split
    · exact fun c => c
    · exact fun c => c
  have := dispatch_keeps_length hd id h0 hs ht1
  split
  · exact this
  · exact this

theorem live_steps_length {id : Nat} {s t : UM} (hst : LiveSteps id s t) (h0 : id ≠ 0) :
    s.isActive id → t.seglen id = s.seglen id := by
  induction hst with
  | refl s => exact fun _ => rfl
  | step s t u hc ht _ ih =>
    intro hs
    rw [ih ht, cycle_keeps_length hc id h0 hs ht]

/-- C19: when a cycle whose instruction is Array Amendment succeeds, with `id = R[A]`,
`off = R[B]`, `v = R[C]`: afterwards word `off` of segment `id` is `v` and an Array Index
on `(id, off)` reads `v`; the number of segments, the length of every segment, every other
word of every segment, the registers, the active flags and the recycling stack are
unchanged. And along any sequence of cycles after each of which a non-zero id is active
(it is not deallocated), the length of its segment stays the same. -/
theorem amendment_frame (s t : UM) (ho : OP s.fetch = 2) (hc : cycle s = Except.ok t) :
    (t.arrays.getD (s.rd (A s.fetch)) [])[s.rd (B s.fetch)]? = some (s.rd (C s.fetch)) ∧
    (∀ w, OP w = 1 → t.rd (B w) = s.rd (A s.fetch) → t.rd (C w) = s.rd (B s.fetch) →
      dispatch t w = Except.ok (t.wr (A w) (s.rd (C s.fetch)), true)) ∧
    t.arrays.length = s.arrays.length ∧ (∀ i, t.seglen i = s.seglen i) ∧
    (∀ i j, i ≠ s.rd (A s.fetch) ∨ j ≠ s.rd (B s.fetch) →
      (t.arrays.getD i [])[j]? = (s.arrays.getD i [])[j]?) ∧
    t.R = s.R ∧ t.active = s.active ∧ t.free_ids = s.free_ids ∧
    (∀ id u u1, id ≠ 0 → u.isActive id → LiveSteps id u u1 → u1.seglen id = u.seglen id) := by
  obtain ⟨_, t1, adv, hd, rfl⟩ := cycle_ok_iff.mp hc
  have hd' : dispatch s s.fetch = Except.ok (t1, adv) := hd
  have key : adv = true ∧ s.isActive (s.rd (A s.fetch)) ∧
      s.rd (B s.fetch) < s.seglen (s.rd (A s.fetch)) ∧
      t1 = s.amended (s.rd (A s.fetch)) (s.rd (B s.fetch)) (s.rd (C s.fetch)) := by
    rcases dispatch_ok_cases hd' with
      ⟨o, -⟩ | ⟨o, -⟩ | ⟨-, a, b, c, d⟩ | ⟨o, -⟩ | ⟨o, -⟩ | ⟨o, -⟩ | ⟨o, -⟩ | ⟨o, -⟩ |
      ⟨o, -⟩ | ⟨o, -⟩ | ⟨o, -⟩ | ⟨o, -⟩ | ⟨o, -⟩ | ⟨o, -⟩
    all_goals first
      | exact ⟨a, b, c, d⟩
      | (rw [ho] at o; exact absurd o (by decide))
  obtain ⟨rfl, hact, hoff, rfl⟩ := key
  simp only [if_true]
  have hlt := hact.1
  have hseg : (s.arrays.set (s.rd (A s.fetch))
      ((s.arrays.getD (s.rd (A s.fetch)) []).set (s.rd (B s.fetch)) (s.rd (C s.fetch)))).getD
        (s.rd (A s.fetch)) [] =
      (s.arrays.getD (s.rd (A s.fetch)) []).set (s.rd (B s.fetch)) (s.rd (C s.fetch)) := by
    rw [getD_set_eq, if_pos ⟨rfl, hlt⟩]
  have hread : ((s.arrays.getD (s.rd (A s.fetch)) []).set (s.rd (B s.fetch))
      (s.rd (C s.fetch)))[s.rd (B s.fetch)]? = some (s.rd (C s.fetch)) :=
    List.getElem?_set_self hoff
  refine ⟨?_, ?_, ?_, ?_, ?_, rfl, rfl, rfl, ?_⟩
  · show ((s.arrays.set _ _).getD _ [])[_]? = _
    rw [hseg, hread]
  · intro w o1 hb hcw
    have e := dispatch_1_ok
      ({ s.amended (s.rd (A s.fetch)) (s.rd (B s.fetch)) (s.rd (C s.fetch)) with
        pc := ((s.amended (s.rd (A s.fetch)) (s.rd (B s.fetch)) (s.rd (C s.fetch))).pc + 1) %
          4294967296 }) w o1
      (by
        rw [hb]
        refine ⟨?_, hact.2⟩
        show _ < (s.arrays.set _ _).length
        rw [List.length_set]; exact hlt)
      (by
        rw [hb, hcw]
        show _ < ((s.arrays.set _ _).getD _ []).length
        rw [hseg, List.length_set]; exact hoff)
    rw [e, hb, hcw]
    have hv : ((s.arrays.set (s.rd (A s.fetch))
        ((s.arrays.getD (s.rd (A s.fetch)) []).set (s.rd (B s.fetch))
          (s.rd (C s.fetch)))).getD (s.rd (A s.fetch)) []).getD (s.rd (B s.fetch)) 0 =
        s.rd (C s.fetch) := by
      rw [hseg, List.getD_eq_getElem?_getD, hread]
      rfl
    have hv2 : (({ s.amended (s.rd (A s.fetch)) (s.rd (B s.fetch)) (s.rd (C s.fetch)) with
        pc := ((s.amended (s.rd (A s.fetch)) (s.rd (B s.fetch)) (s.rd (C s.fetch))).pc + 1) %
          4294967296 } : UM).arrays.getD (s.rd (A s.fetch)) []).getD (s.rd (B s.fetch)) 0 =
        s.rd (C s.fetch) := hv
    rw [hv2]
  · show (s.arrays.set _ _).length = _
    rw [List.length_set]
  · intro i
    show ((s.arrays.set _ _).getD i []).length = _
    rw [getD_set_eq]
    split
    · rename_i c
      rw [List.length_set, c.1]
      rfl
    · rfl
  · intro i j hij
    show ((s.arrays.set _ _).getD i [])[j]? = _
    rw [getD_set_eq]
    split
    · rename_i c
      have hj : s.rd (B s.fetch) ≠ j := by
        rcases hij with d | d
        · exact absurd c.1.symm d
        · exact fun e => d e.symm
      rw [List.getElem?_set_ne hj, c.1]
    · rfl
  · intro id u u1 h0 hu hst
    exact live_steps_length hst h0 hu

theorem amendment_frame_witness :
    (amend_done.arrays.getD (amend_state.rd (A amend_state.fetch)) [])[amend_state.rd
        (B amend_state.fetch)]? = some (amend_state.rd (C amend_state.fetch)) ∧
    (∀ w, OP w = 1 → amend_done.rd (B w) = amend_state.rd (A amend_state.fetch) →
      amend_done.rd (C w) = amend_state.rd (B amend_state.fetch) →
      dispatch amend_done w =
        Except.ok (amend_done.wr (A w) (amend_state.rd (C amend_state.fetch)), true)) ∧
    amend_done.arrays.length = amend_state.arrays.length ∧
    (∀ i, amend_done.seglen i = amend_state.seglen i) ∧
    (∀ i j, i ≠ amend_state.rd (A amend_state.fetch) ∨
        j ≠ amend_state.rd (B amend_state.fetch) →
      (amend_done.arrays.getD i [])[j]? = (amend_state.arrays.getD i [])[j]?) ∧
    amend_done.R = amend_state.R ∧ amend_done.active = amend_state.active ∧
    amend_done.free_ids = amend_state.free_ids ∧
    (∀ id u u1, id ≠ 0 → u.isActive id → LiveSteps id u u1 → u1.seglen id = u.seglen id) :=
  amendment_frame amend_state amend_done (by decide) rfl

/-- C20: in every state reachable from `load_program`, `arrays` and `active` have the same
length; `free_ids` holds exactly the ids of the slots whose flag is 0, each once, all
non-zero and below the pool size; every inactive slot has empty storage. Consequently
`alloc_array` never takes the branches "recycled id out of range" and "recycled id still
active", and takes the branch "allocated id 0" only when the pool has `2^32` slots and
nothing to recycle: with fewer slots it always succeeds. -/
theorem pool_well_formed (s : UM) (h : Reachable s) :
    s.active.length = s.arrays.length ∧
    (∀ id, id ∈ s.free_ids ↔ (id < s.arrays.length ∧ s.active.getD id 0 = 0)) ∧
    s.free_ids.Nodup ∧
    (∀ id, id ∈ s.free_ids → id ≠ 0 ∧ id < s.arrays.length) ∧
    (∀ i, i < s.arrays.length → s.active.getD i 0 = 0 → s.arrays[i]? = some []) ∧
    (∀ n e, alloc_array s n = Except.error e →
      e = "internal: allocated id 0 (forbidden)" ∧ s.free_ids = [] ∧
        s.arrays.length = 4294967296) ∧
    (s.arrays.length < 4294967296 → ∀ n, ∃ id t, alloc_array s n = Except.ok (id, t)) := by
  have hw := h.wf
  have herr : ∀ n e, alloc_array s n = Except.error e →
      e = "internal: allocated id 0 (forbidden)" ∧ s.free_ids = [] ∧
        s.arrays.length = 4294967296 := by
    intro n e he
    rcases alloc_array_cases s hw n with ⟨l, i, _, _, _, _, _, ha⟩ | ⟨_, _, ha⟩ |
      ⟨hnil, hlen, ha⟩
    · rw [ha] at he; cases he
    · rw [ha] at he; cases he
    · rw [ha] at he
      simp only [Except.error.injEq] at he
      exact ⟨he.symm, hnil, hlen⟩
  refine ⟨hw.len_eq, ?_, hw.free_nodup, ?_, ?_, herr, ?_⟩
  · intro id
    constructor
    · intro hm
      exact (hw.free_sound id hm).2
    · intro hm
      exact hw.free_complete id hm.1 hm.2
  · intro id hm
    exact ⟨(hw.free_sound id hm).1, (hw.free_sound id hm).2.1⟩
  · intro i hi hz
    have := hw.empty_inactive i hi hz
    rw [List.getD_eq_getElem?_getD, List.getElem?_eq_getElem hi] at this
    rw [List.getElem?_eq_getElem hi]
    simpa using this
  · intro hlt n
    cases ha : alloc_array s n with
    | error e =>
      have := (herr n e ha).2.2
      omega
    | ok r => exact ⟨r.1, r.2, rfl⟩

theorem pool_well_formed_witness :
    demo4.active.length = demo4.arrays.length ∧
    (∀ id, id ∈ demo4.free_ids ↔ (id < demo4.arrays.length ∧ demo4.active.getD id 0 = 0)) ∧
    demo4.free_ids.Nodup ∧
    (∀ id, id ∈ demo4.free_ids → id ≠ 0 ∧ id < demo4.arrays.length) ∧
    (∀ i, i < demo4.arrays.length → demo4.active.getD i 0 = 0 →
      demo4.arrays[i]? = some []) ∧
    (∀ n e, alloc_array demo4 n = Except.error e →
      e = "internal: allocated id 0 (forbidden)" ∧ demo4.free_ids = [] ∧
        demo4.arrays.length = 4294967296) ∧
    (demo4.arrays.length < 4294967296 →
      ∀ n, ∃ id t, alloc_array demo4 n = Except.ok (id, t)) :=
  pool_well_formed demo4 demo4_reachable

theorem load_program_fails_iff_witness :
    ((∃ e, load_program (UM.fresh []) "short.um" (some [0x70, 0, 0]) = Except.error e) ↔
      ([0x70, 0, 0] : List Byte).length % 4 ≠ 0) ∧
    (([0x70, 0, 0] : List Byte).length % 4 ≠ 0 →
      load_program (UM.fresh []) "short.um" (some [0x70, 0, 0]) =
        Except.error "program file size not divisible by 4") ∧
    (([0x70, 0, 0] : List Byte).length = 1 ∨ ([0x70, 0, 0] : List Byte).length = 2 ∨
        ([0x70, 0, 0] : List Byte).length = 3 ∨ ([0x70, 0, 0] : List Byte).length = 5 →
      ∃ e, load_program (UM.fresh []) "short.um" (some [0x70, 0, 0]) = Except.error e) ∧
    (([0x70, 0, 0] : List Byte) = [] →
      ∃ s, load_program (UM.fresh []) "short.um" (some [0x70, 0, 0]) = Except.ok s ∧
        s.arrays = [[]] ∧ cycle s = Except.error "PC out of bounds" ∧
        run 1 s = some (Except.error "PC out of bounds")) :=
  load_program_fails_iff (UM.fresh []) "short.um" [0x70, 0, 0]

end UMEmu
